import Mathlib

/-!
Verification of the selector-to-SQL compiler of this repository.

The development shallowly embeds `utils/query_to_sql.py` (class `QueryToSQL`)
and the schema guard / query builders of `utils/db_handler.py` (class
`DBHandler`), and settles the frozen claims about them.

Modelling conventions:
* Python dicts become association lists (`List (String × _)`) in insertion
  order; `d[k] = v` becomes `dict_set` (overwrite in place or append) and
  `d.update(other)` becomes `dict_update` (left fold of `dict_set`).
* The mutable field accumulator `self._fields` (a Python set) is threaded
  explicitly as a `List String` with membership-based insertion (`add_field`);
  every compiler function takes the accumulated fields and returns the updated
  accumulation as the first component of its result.
* Scalar JSON values (the query values) are kept polymorphic in a type `α`;
  concrete examples use `Scalar` (an integer-or-string value, matching the
  values the wire format can carry).
* `field.replace(".", "_")` on a single-character pattern is a character-wise
  map, embedded as `param_name_of`.
* `" AND ".join(parts)` is embedded as `str_join " AND " parts` with Python's
  `str.join` semantics.
* A selector node is a Python dict that may or may not carry the keys
  `"statement"` and `"operator"`; `Selector` records exactly those two
  optional entries, which are the only keys `query_selector_to_sql` reads.
-/

namespace TitanicQuery

/-- Parameter mapping produced by the compiler: placeholder name to value. -/
abbrev Params (α : Type) := List (String × α)

/-- A statement node: field name to a mapping of operator key to value. -/
abbrev Stmt (α : Type) := List (String × List (String × α))

/-- A selector tree node: a dict with an optional `"statement"` entry and an
optional `"operator"` entry.  The `"operator"` entry maps connective keys
(such as `"$and"`, `"$or"`, but any string can occur) to ordered lists of
child nodes. -/
inductive Selector (α : Type) where
  | node (statement : Option (Stmt α)) (operator : Option (List (String × List (Selector α))))

/-- Python set insertion `self._fields.add field` on the list model:
append the field if it is not already present. -/
def add_field (fields : List String) (f : String) : List String :=
  if f ∈ fields then fields else fields ++ [f]

/-- Python `d[k] = v` on the association-list model of a dict: overwrite in
place if the key is present, append otherwise. -/
def dict_set (params : Params α) (k : String) (v : α) : Params α :=
  if params.any (fun p => p.1 = k) then
    params.map (fun p => if p.1 = k then (k, v) else p)
  else params ++ [(k, v)]

/-- Python `d.update(other)`: set every entry of `other` in order. -/
def dict_update (params newParams : Params α) : Params α :=
  newParams.foldl (fun acc p => dict_set acc p.1 p.2) params

/-- Python `", ".join(parts)` (and the other joiners): Python `str.join`
semantics. -/
def str_join (sep : String) (parts : List String) : String :=
  match parts with
  | [] => ""
  | [p] => p
  | p :: rest => p ++ sep ++ str_join sep rest

/-- `param_name = field.replace(".", "_")` — a character-wise replacement of
`'.'` by `'_'` (the pattern is a single character). -/
def param_name_of (field : String) : String :=
  String.mk (field.data.map (fun c => if c = '.' then '_' else c))

/-- The `if operator == "$eq": … elif …` chain of `convert_operator`: the
rendered comparison for one operator key, or `none` for an unsupported key. -/
def render_comparison (field paramName operator : String) : Option String :=
  if operator = "$eq" then some (field ++ " = :" ++ paramName)
  else if operator = "$ne" then some (field ++ " != :" ++ paramName)
  else if operator = "$lt" then some (field ++ " < :" ++ paramName)
  else if operator = "$lte" then some (field ++ " <= :" ++ paramName)
  else if operator = "$gt" then some (field ++ " > :" ++ paramName)
  else if operator = "$gte" then some (field ++ " >= :" ++ paramName)
  else none

/-- Inner loop of `convert_operator`: `for operator, value in conditions.items()`.
The parameter is bound (`params[param_name] = value`) before the operator key
is dispatched, so it is bound for unsupported operators as well. -/
def convert_conds (field paramName : String) (conds : List (String × α))
    (sqlParts : List String) (params : Params α) : List String × Params α :=
  match conds with
  | [] => (sqlParts, params)
  | (operator, value) :: rest =>
      let params' := dict_set params paramName value
      let sqlParts' :=
        match render_comparison field paramName operator with
        | some part => sqlParts ++ [part]
        | none => sqlParts
      convert_conds field paramName rest sqlParts' params'

/-- Outer loop of `convert_operator`: `for field, conditions in statement.items()`,
recording the field in the accumulated field set. -/
def convert_fields (stmt : Stmt α) (fields sqlParts : List String) (params : Params α) :
    List String × List String × Params α :=
  match stmt with
  | [] => (fields, sqlParts, params)
  | (field, conditions) :: rest =>
      let fields' := add_field fields field
      let r := convert_conds field (param_name_of field) conditions sqlParts params
      convert_fields rest fields' r.1 r.2

/-- `QueryToSQL.convert_operator`: returns the updated field accumulation, the
fragment (`" AND ".join(sql_parts)`), and the parameter mapping. -/
def convert_operator (fields : List String) (statement : Stmt α) :
    List String × String × Params α :=
  let r := convert_fields statement fields [] []
  (r.1, str_join " AND " r.2.1, r.2.2)

mutual

/-- Inner loop of `query_selector_to_sql`: `for condition in conditions`.
`if "statement" in condition` is checked first, so a child carrying both keys
takes the statement path; a child with neither key is skipped. -/
def process_conditions (fields : List String) (conditions : List (Selector α))
    (subConds : List String) (params : Params α) :
    List String × List String × Params α :=
  match conditions with
  | [] => (fields, subConds, params)
  | .node (some st) _ :: rest =>
      let r := convert_operator fields st
      process_conditions r.1 rest (subConds ++ ["(" ++ r.2.1 ++ ")"]) (dict_update params r.2.2)
  | c@(.node none (some _)) :: rest =>
      let r := query_selector_to_sql fields c
      process_conditions r.1 rest (subConds ++ ["(" ++ r.2.1 ++ ")"]) (dict_update params r.2.2)
  | .node none none :: rest =>
      process_conditions fields rest subConds params

/-- Outer loop of `query_selector_to_sql`: `for key, conditions in selector["operator"].items()`;
`"$and"` joins the sub-conditions with `" AND "`, `"$or"` with `" OR "`, any
other key drops them (while keeping their parameter updates). -/
def process_keys (fields : List String) (opMap : List (String × List (Selector α)))
    (sqlConditions : List String) (params : Params α) :
    List String × List String × Params α :=
  match opMap with
  | [] => (fields, sqlConditions, params)
  | (key, conditions) :: rest =>
      let r := process_conditions fields conditions [] params
      let sqlConditions' :=
        if key = "$and" then sqlConditions ++ [str_join " AND " r.2.1]
        else if key = "$or" then sqlConditions ++ [str_join " OR " r.2.1]
        else sqlConditions
      process_keys r.1 rest sqlConditions' r.2.2

/-- `QueryToSQL.query_selector_to_sql`: only the `"operator"` key of the
top-level selector is inspected (there is no top-level `"statement"` branch in
the code); the result is `(" AND ".join(sql_conditions) if sql_conditions
else "", params)` together with the updated field accumulation. -/
def query_selector_to_sql (fields : List String) (selector : Selector α) :
    List String × String × Params α :=
  match selector with
  | .node _ none => (fields, "", [])
  | .node _ (some opMap) =>
      let r := process_keys fields opMap [] []
      (r.1, if r.2.1 = [] then "" else str_join " AND " r.2.1, r.2.2)

end

/-- A scalar query value as carried by the JSON wire format: integer or string. -/
inductive Scalar where
  | int (i : Int)
  | str (s : String)
deriving DecidableEq, Repr

/-! ### Spec-side vocabulary

These definitions restate the specification's description of the compiler
(the operator table `eq→=, ne→!=, …`, the supported-operator set, and the
per-child compilation used by the connective round-trip property), so that
the claim theorems compare the code's output against an independent
construction. -/

/-- The spec's operator table: `eq→=, ne→!=, lt→<, lte→<=, gt→>, gte→>=`. -/
def sql_symbol (op : String) : String :=
  if op = "$eq" then "="
  else if op = "$ne" then "!="
  else if op = "$lt" then "<"
  else if op = "$lte" then "<="
  else if op = "$gt" then ">"
  else if op = "$gte" then ">="
  else ""

/-- Membership in the closed operator set `{$eq, $ne, $lt, $lte, $gt, $gte}`. -/
def supported_op (op : String) : Bool :=
  op = "$eq" || op = "$ne" || op = "$lt" || op = "$lte" || op = "$gt" || op = "$gte"

/-- The spec's rendering of one comparison: `"<field> <sql_op> :<placeholder>"`. -/
def spec_comparison (field : String) (op : String) : String :=
  field ++ " " ++ sql_symbol op ++ " :" ++ param_name_of field

/-- Whether a child node produces a compiled contribution: it carries a
`"statement"` key or an `"operator"` key. -/
def has_contribution : Selector α → Bool
  | .node (some _) _ => true
  | .node none (some _) => true
  | .node none none => false

/-- The fragment the compiler produces for one child of a connective
(statement children via `convert_operator`, operator children via recursive
`query_selector_to_sql`, on a fresh field accumulation). -/
def child_sql : Selector α → String
  | .node (some st) _ => (convert_operator [] st).2.1
  | c => (query_selector_to_sql [] c).2.1

/-- The parameter mapping the compiler produces for one child of a
connective. -/
def child_params : Selector α → Params α
  | .node (some st) _ => (convert_operator [] st).2.2
  | c => (query_selector_to_sql [] c).2.2

/-- The comparisons a whole statement renders, in source order: for each field,
one comparison per supported operator key (unsupported keys are dropped). -/
def stmt_sql (st : Stmt α) : List String :=
  (st.map (fun fc => (fc.2.filter (fun c => supported_op c.1)).map
      (fun c => fc.1 ++ " " ++ sql_symbol c.1 ++ " :" ++ param_name_of fc.1))).flatten

/-- The parameter mapping a whole statement produces: every operator/value
pair (supported or not) writes the field-derived placeholder in order. -/
def stmt_params (params : Params α) (st : Stmt α) : Params α :=
  st.foldl (fun acc fc =>
    fc.2.foldl (fun a c => dict_set a (param_name_of fc.1) c.2) acc) params

/-- The parenthesised fragments a child list contributes, in order: children
with neither key are skipped. -/
def child_sql_list (conds : List (Selector α)) : List String :=
  conds.filterMap (fun c =>
    if has_contribution c then some ("(" ++ child_sql c ++ ")") else none)

/-- The parameter merge a child list performs: each child's mapping is
folded into the accumulator with `dict_update` (later children overwrite
earlier ones). -/
def child_params_fold (params : Params α) (conds : List (Selector α)) : Params α :=
  conds.foldl (fun acc c => dict_update acc (child_params c)) params

/-- The joined sub-condition strings an operator map contributes: one entry
per `"$and"`/`"$or"` key; other keys are dropped. -/
def key_sql_list (opMap : List (String × List (Selector α))) : List String :=
  opMap.filterMap (fun kc =>
    if kc.1 = "$and" then some (str_join " AND " (child_sql_list kc.2))
    else if kc.1 = "$or" then some (str_join " OR " (child_sql_list kc.2))
    else none)

/-- The parameter merge an operator map performs across all its keys
(including keys other than `"$and"`/`"$or"`). -/
def key_params_fold (params : Params α) (opMap : List (String × List (Selector α))) : Params α :=
  opMap.foldl (fun acc kc => child_params_fold acc kc.2) params

/-- Rename every value of a parameter mapping through `f`, keeping keys. -/
def map_params (f : α → β) (params : Params α) : Params β :=
  params.map (fun p => (p.1, f p.2))

/-- Apply `f` to every value of a statement, keeping fields and operator keys. -/
def map_stmt (f : α → β) (st : Stmt α) : Stmt β :=
  st.map (fun fc => (fc.1, fc.2.map (fun c => (c.1, f c.2))))

mutual

/-- Apply `f` to every value of a selector tree, keeping its entire shape:
fields, operator keys, connective keys and child order are untouched. -/
def map_values (f : α → β) : Selector α → Selector β
  | .node st none => .node (st.map (map_stmt f)) none
  | .node st (some opMap) => .node (st.map (map_stmt f)) (some (map_op_entries f opMap))

/-- Value map over the entries of an operator map. -/
def map_op_entries (f : α → β) :
    List (String × List (Selector α)) → List (String × List (Selector β))
  | [] => []
  | (k, conds) :: rest => (k, map_children f conds) :: map_op_entries f rest

/-- Value map over a child list. -/
def map_children (f : α → β) : List (Selector α) → List (Selector β)
  | [] => []
  | c :: rest => map_values f c :: map_children f rest

end

/-- A placeholder-name character: SQL named parameters consist of
alphanumeric characters and underscores. -/
def word_char (c : Char) : Bool := c.isAlphanum || c = '_'

/-- Scanner state machine over a character list: a `some acc` state is an
open placeholder token (characters accumulated in reverse); a `':'` opens a
token, and the token ends at the first non-word character. -/
def scan_aux : List Char → Option (List Char) → List String
  | [], some t => [String.mk t.reverse]
  | [], none => []
  | c :: rest, some t =>
      if word_char c then scan_aux rest (some (c :: t))
      else String.mk t.reverse :: scan_aux rest (if c = ':' then some [] else none)
  | c :: rest, none =>
      if c = ':' then scan_aux rest (some []) else scan_aux rest none

/-- Every placeholder token of the form `:<name>` occurring in a string, in
order of occurrence. -/
def extract_placeholders (s : String) : List String := scan_aux s.data none

/-- A field name that cannot forge placeholder tokens: only word characters
and dots (dots are what `param_name_of` rewrites). -/
def clean_field (f : String) : Bool := f.data.all (fun c => word_char c || c = '.')

/-- The keys of a parameter mapping. -/
def param_keys (params : Params α) : List String := params.map Prod.fst

mutual

/-- The field names a selector node contributes to the accumulated field set
(statement fields of statement children, recursively for operator children). -/
def sel_own_fields : Selector α → List String
  | .node _ none => []
  | .node _ (some m) => opmap_own_fields m

/-- The field names an operator map contributes. -/
def opmap_own_fields : List (String × List (Selector α)) → List String
  | [] => []
  | (_, conds) :: rest => conds_own_fields conds ++ opmap_own_fields rest

/-- The field names a child list contributes. -/
def conds_own_fields : List (Selector α) → List String
  | [] => []
  | .node (some st) _ :: rest => st.map Prod.fst ++ conds_own_fields rest
  | c@(.node none (some _)) :: rest => sel_own_fields c ++ conds_own_fields rest
  | .node none none :: rest => conds_own_fields rest

end

/-! ### DBHandler model

The database engine is abstracted as a schema (table name to column list,
reflecting what SQLAlchemy metadata reflection would report) plus an opaque
execution function.  Each query-building method returns, alongside the rows,
the trace of `(sql, params)` pairs it passed to `_execute_query`, so that
"no SQL executed" is the trace being empty. -/
structure DB (α ρ : Type) where
  tables : List (String × List String)
  exec : String → Params α → List ρ

/-- `DBHandler.get_all_tables` via metadata reflection. -/
def get_all_tables (db : DB α ρ) : List String := db.tables.map Prod.fst

/-- `DBHandler.get_table_columns`: the guard call
`check_table_column_exist(tab)` with no column list reduces to table
membership (inlined here to keep the two definitions non-mutual); a known
table reflects its column names, an unknown one yields `[]`. -/
def get_table_columns (db : DB α ρ) (tab : String) : List String :=
  if tab ∈ get_all_tables db then
    ((db.tables.find? (fun t => t.1 = tab)).map Prod.snd).getD []
  else []

/-- `DBHandler.check_table_column_exist`: `False` for a missing/unknown table;
with a column list, every column must be among the table's columns. -/
def check_table_column_exist (db : DB α ρ) (table : Option String)
    (columns : Option (List String)) : Bool :=
  match table with
  | none => false
  | some t =>
      if t ∈ get_all_tables db then
        match columns with
        | none => true
        | some cs => cs.all (fun c => c ∈ get_table_columns db t)
      else false

/-- `DBHandler.check_parameter`: compile the selector with a fresh
`QueryToSQL` instance (field accumulation starts empty), then validate the
collected fields against the table's schema; on failure the compiled pair is
discarded. -/
def check_parameter (db : DB α ρ) (table : String) (parameter : Option (Selector α)) :
    Bool × String × Params α :=
  match parameter with
  | some param =>
      let r := query_selector_to_sql [] param
      if check_table_column_exist db (some table) (some r.1) = false then (false, "", [])
      else (true, r.2.1, r.2.2)
  | none => (true, "", [])

/-- `DBHandler.get_values` with its execution trace.  The second condition
keeps Python's operator precedence: `len(columns) == 0 or (check(...) is
False and exists is False)`. -/
def get_values (db : DB α ρ) (table : String) (columns : List String)
    (parameter : Option (Selector α)) : List ρ × List (String × Params α) :=
  let r := check_parameter db table parameter
  if r.1 = false then ([], [])
  else if columns.length = 0 ∨
      (check_table_column_exist db (some table) (some columns) = false ∧ r.1 = false) then
    ([], [])
  else if r.2.1 = "" then
    let sql := "SELECT " ++ str_join ", " columns ++ " FROM " ++ table
    (db.exec sql [], [(sql, [])])
  else
    let sql := "SELECT " ++ str_join ", " columns ++ " FROM " ++ table ++ " WHERE " ++ r.2.1
    (db.exec sql r.2.2, [(sql, r.2.2)])

/-- `DBHandler.get_all` with its execution trace: `if` takes the plain
table-existence check, the `elif` repeats it conjoined with a non-empty
compiled fragment. -/
def get_all (db : DB α ρ) (table : String) (parameter : Option (Selector α)) :
    List ρ × List (String × Params α) :=
  let r := check_parameter db table parameter
  if r.1 = false then ([], [])
  else if check_table_column_exist db (some table) none = true then
    (db.exec ("SELECT * FROM " ++ table) [], [("SELECT * FROM " ++ table, [])])
  else if check_table_column_exist db (some table) none = true ∧ r.2.1 ≠ "" then
    (db.exec ("SELECT * FROM " ++ table ++ " WHERE " ++ r.2.1) r.2.2,
     [("SELECT * FROM " ++ table ++ " WHERE " ++ r.2.1, r.2.2)])
  else ([], [])

/-! ### Dynamic model of the compiler for exception behaviour

The spec claims the compiler "never raises on malformed input".  To settle
that claim the compiler is re-embedded over a dynamically typed value
universe mirroring the Python objects a JSON body can produce (dict keys are
strings, as guaranteed by the JSON wire format; lists and dicts are encoded
as constructor chains).  Fallible operations return `Except PyErr`, with
`PyErr` naming the Python exception class that the corresponding operation
raises (`TypeError` for an unsupported `in`/subscript/iteration, 
`AttributeError` for `.items()` on a non-dict, `KeyError` for a missing
subscript key). -/
inductive PyVal where
  | pyNone
  | pyBool (b : Bool)
  | pyInt (n : Int)
  | pyStr (s : String)
  | lnil
  | lcons (hd tl : PyVal)
  | dnil
  | dcons (key : String) (val rest : PyVal)

/-- The Python exception classes the compiler can raise. -/
inductive PyErr where
  | typeError
  | attributeError
  | keyError

/-- Dynamic parameter mapping: placeholder name to arbitrary Python value. -/
abbrev PyParams := List (String × PyVal)

/-- A proper dict chain (what a real Python dict always is). -/
def is_dict_chain : PyVal → Bool
  | .dnil => true
  | .dcons _ _ rest => is_dict_chain rest
  | _ => false

/-- Key membership in a dict (`key in d`). -/
def dictContains : PyVal → String → Bool
  | .dcons k _ rest, key => (k = key) || dictContains rest key
  | _, _ => false

/-- Dict lookup (`d[key]` when the key is present). -/
def dictGet : PyVal → String → Option PyVal
  | .dcons k v rest, key => if k = key then some v else dictGet rest key
  | _, _ => none

/-- Membership of a string in a list (`key in l` scans by equality; only a
string element can equal a string). -/
def listContainsStr : PyVal → String → Bool
  | .lcons (.pyStr s) rest, key => (s = key) || listContainsStr rest key
  | .lcons _ rest, key => listContainsStr rest key
  | _, _ => false

/-- List-of-chars prefix test. -/
def isPreOf : List Char → List Char → Bool
  | [], _ => true
  | _ :: _, [] => false
  | a :: as, b :: bs => (a = b) && isPreOf as bs

/-- Substring occurrence test (`pat in text` for Python strings). -/
def hasSub (pat : List Char) : List Char → Bool
  | [] => isPreOf pat []
  | l@(_ :: rest) => isPreOf pat l || hasSub pat rest

/-- Python `pat in s` on strings: substring containment. -/
def strContainsSub (s pat : String) : Bool := hasSub pat.data s.data

/-- Result is a success. -/
def is_ok : Except ε δ → Bool
  | .ok _ => true
  | .error _ => false

/-- Inner loop of the dynamic `convert_operator`: `conditions.items()` raises
`AttributeError` unless `conditions` is a dict; the parameter is bound before
the operator dispatch exactly as in the typed model. -/
def py_convert_conds (field paramName : String) :
    PyVal → List String → PyParams → Except PyErr (List String × PyParams)
  | .dnil, sqlParts, params => .ok (sqlParts, params)
  | .dcons operator value rest, sqlParts, params =>
      let params' := dict_set params paramName value
      let sqlParts' :=
        match render_comparison field paramName operator with
        | some part => sqlParts ++ [part]
        | none => sqlParts
      py_convert_conds field paramName rest sqlParts' params'
  | _, _, _ => .error .attributeError

/-- Outer loop of the dynamic `convert_operator`: `statement.items()` raises
`AttributeError` unless the statement is a dict. -/
def py_convert_fields : PyVal → List String → List String → PyParams →
    Except PyErr (List String × List String × PyParams)
  | .dnil, fields, sqlParts, params => .ok (fields, sqlParts, params)
  | .dcons field conditions rest, fields, sqlParts, params =>
      match py_convert_conds field (param_name_of field) conditions sqlParts params with
      | .ok r => py_convert_fields rest (add_field fields field) r.1 r.2
      | .error e => .error e
  | _, _, _, _ => .error .attributeError

/-- Dynamic `QueryToSQL.convert_operator`. -/
def py_convert_operator (fields : List String) (statement : PyVal) :
    Except PyErr (List String × String × PyParams) :=
  match py_convert_fields statement fields [] [] with
  | .ok r => .ok (r.1, str_join " AND " r.2.1, r.2.2)
  | .error e => .error e

mutual

/-- One iteration of `for condition in conditions`.  For a dict condition,
`"statement" in condition` then `condition["statement"]` are modelled by
`dictGet`; for a list or string condition the membership tests succeed but a
hit makes the subsequent subscript (or the recursive call's subscript) raise
`TypeError`; for other values `in` itself raises `TypeError`. -/
def py_process_condition (fields : List String) (condition : PyVal)
    (subConds : List String) (params : PyParams) :
    Except PyErr (List String × List String × PyParams) :=
  match condition with
  | .dnil => .ok (fields, subConds, params)
  | .dcons a b r =>
      match dictGet (.dcons a b r) "statement" with
      | some st =>
          match py_convert_operator fields st with
          | .ok r => .ok (r.1, subConds ++ ["(" ++ r.2.1 ++ ")"], dict_update params r.2.2)
          | .error e => .error e
      | none =>
          match dictGet (.dcons a b r) "operator" with
          | some _ =>
              match py_query_selector_to_sql fields (.dcons a b r) with
              | .ok r => .ok (r.1, subConds ++ ["(" ++ r.2.1 ++ ")"], dict_update params r.2.2)
              | .error e => .error e
          | none => .ok (fields, subConds, params)
  | .lnil => .ok (fields, subConds, params)
  | .lcons hd tl =>
      if listContainsStr (.lcons hd tl) "statement" then .error .typeError
      else if listContainsStr (.lcons hd tl) "operator" then
        match py_query_selector_to_sql fields (.lcons hd tl) with
        | .ok r => .ok (r.1, subConds ++ ["(" ++ r.2.1 ++ ")"], dict_update params r.2.2)
        | .error e => .error e
      else .ok (fields, subConds, params)
  | .pyStr s =>
      if strContainsSub s "statement" then .error .typeError
      else if strContainsSub s "operator" then
        match py_query_selector_to_sql fields (.pyStr s) with
        | .ok r => .ok (r.1, subConds ++ ["(" ++ r.2.1 ++ ")"], dict_update params r.2.2)
        | .error e => .error e
      else .ok (fields, subConds, params)
  | _ => .error .typeError
termination_by 4 * sizeOf condition + 1
decreasing_by
  all_goals simp_wf
  all_goals omega

/-- `for condition in conditions`: lists iterate their elements, dicts their
keys (as strings — a single-character string from iterating a string contains
neither `"statement"` nor `"operator"`, so string iteration is a no-op), and
other values raise `TypeError`. -/
def py_process_conditions (fields : List String) (conditions : PyVal)
    (subConds : List String) (params : PyParams) :
    Except PyErr (List String × List String × PyParams) :=
  match conditions with
  | .lnil => .ok (fields, subConds, params)
  | .lcons condition rest =>
      match py_process_condition fields condition subConds params with
      | .ok r => py_process_conditions r.1 rest r.2.1 r.2.2
      | .error e => .error e
  | .dnil => .ok (fields, subConds, params)
  | .dcons k _ rest =>
      match py_process_condition fields (.pyStr k) subConds params with
      | .ok r => py_process_conditions r.1 rest r.2.1 r.2.2
      | .error e => .error e
  | .pyStr _ => .ok (fields, subConds, params)
  | _ => .error .typeError
termination_by 4 * sizeOf conditions + 2
decreasing_by
  all_goals simp_wf
  all_goals omega

/-- `for key, conditions in selector["operator"].items()`: raises
`AttributeError` when the operator value is not a dict. -/
def py_process_keys (fields : List String) (opMap : PyVal)
    (sqlConditions : List String) (params : PyParams) :
    Except PyErr (List String × List String × PyParams) :=
  match opMap with
  | .dnil => .ok (fields, sqlConditions, params)
  | .dcons key conditions rest =>
      match py_process_conditions fields conditions [] params with
      | .ok r =>
          let sqlConditions' :=
            if key = "$and" then sqlConditions ++ [str_join " AND " r.2.1]
            else if key = "$or" then sqlConditions ++ [str_join " OR " r.2.1]
            else sqlConditions
          py_process_keys r.1 rest sqlConditions' r.2.2
      | .error e => .error e
  | _ => .error .attributeError
termination_by 4 * sizeOf opMap + 3
decreasing_by
  all_goals simp_wf
  all_goals omega

/-- Dynamic `QueryToSQL.query_selector_to_sql`: `"operator" in selector` and
`selector["operator"]` per Python semantics for each value class. -/
def py_query_selector_to_sql (fields : List String) (selector : PyVal) :
    Except PyErr (List String × String × PyParams) :=
  match selector with
  | .dnil => .ok (fields, "", [])
  | .dcons a b rest =>
      match h : dictGet (.dcons a b rest) "operator" with
      | some opVal =>
          match py_process_keys fields opVal [] [] with
          | .ok r => .ok (r.1, if r.2.1 = [] then "" else str_join " AND " r.2.1, r.2.2)
          | .error e => .error e
      | none => .ok (fields, "", [])
  | .lnil => .ok (fields, "", [])
  | .lcons hd tl =>
      if listContainsStr (.lcons hd tl) "operator" then .error .typeError
      else .ok (fields, "", [])
  | .pyStr s =>
      if strContainsSub s "operator" then .error .typeError
      else .ok (fields, "", [])
  | _ => .error .typeError
termination_by 4 * sizeOf selector
decreasing_by
  simp_wf
  have hlt : ∀ (d : PyVal) (k : String) (v : PyVal), dictGet d k = some v → sizeOf v < sizeOf d := by
    intro d
    induction d with
    | pyNone => intro k v hdg; simp [dictGet] at hdg
    | pyBool b => intro k v hdg; simp [dictGet] at hdg
    | pyInt n => intro k v hdg; simp [dictGet] at hdg
    | pyStr s => intro k v hdg; simp [dictGet] at hdg
    | lnil => intro k v hdg; simp [dictGet] at hdg
    | lcons hd tl ih1 ih2 => intro k v hdg; simp [dictGet] at hdg
    | dnil => intro k v hdg; simp [dictGet] at hdg
    | dcons k0 v0 rest ih1 ih2 =>
        intro k v hdg
        simp only [dictGet] at hdg
        by_cases hk : k0 = k
        · rw [if_pos hk] at hdg
          cases hdg
          simp
          omega
        · rw [if_neg hk] at hdg
          have := ih2 _ _ hdg
          simp
          omega
  have := hlt _ "operator" opVal h
  simp at this ⊢
  omega

end

/-- A statement node of the expected container types: a dict whose values are
themselves dicts (the values inside those are never introspected). -/
def well_shaped_statement : PyVal → Bool
  | .dnil => true
  | .dcons _ conds rest => is_dict_chain conds && well_shaped_statement rest
  | _ => false

mutual

/-- A selector node of the expected container types: a dict where a
`"statement"` entry holds a dict of dicts and an `"operator"` entry holds a
dict mapping keys to lists of such nodes; all other keys are unconstrained. -/
def well_shaped : PyVal → Bool
  | .dnil => true
  | .dcons k v rest =>
      (if k = "statement" then well_shaped_statement v
       else if k = "operator" then well_shaped_opmap v
       else true) && well_shaped rest
  | _ => false

/-- An operator map of the expected container types. -/
def well_shaped_opmap : PyVal → Bool
  | .dnil => true
  | .dcons _ conds rest => well_shaped_condlist conds && well_shaped_opmap rest
  | _ => false

/-- A child list of the expected container types. -/
def well_shaped_condlist : PyVal → Bool
  | .lnil => true
  | .lcons c rest => well_shaped c && well_shaped_condlist rest
  | _ => false

end

/-! ### Basic dictionary lemmas -/

theorem map_set_of_key_absent (params : Params α) (k : String) (b : α)
    (h : ¬ params.any (fun p => p.1 = k) = true) :
    params.map (fun p => if p.1 = k then (k, b) else p) = params := by
  induction params with
  | nil => rfl
  | cons p rest ih =>
      simp only [List.any_cons, Bool.or_eq_true, not_or] at h
      obtain ⟨h1, h2⟩ := h
      have h1' : ¬ p.1 = k := by simpa using h1
      simp only [List.map_cons, if_neg h1', ih (by simpa using h2)]

theorem dict_set_idem (params : Params α) (k : String) (a b : α) :
    dict_set (dict_set params k a) k b = dict_set params k b := by
  by_cases h : params.any (fun p => p.1 = k) = true
  · unfold dict_set
    rw [if_pos h]
    have hany : ((params.map (fun p => if p.1 = k then (k, a) else p)).any
        (fun p => p.1 = k)) = true := by
      rw [List.any_eq_true] at h ⊢
      obtain ⟨p, hp, hpk⟩ := h
      refine ⟨(k, a), ?_, by simp⟩
      have hp' : p.1 = k := of_decide_eq_true hpk
      have := List.mem_map_of_mem (fun p => if p.1 = k then (k, a) else p) hp
      simpa [hp'] using this
    rw [if_pos hany, if_pos h, List.map_map]
    apply List.map_congr_left
    intro p _
    by_cases hpk : p.1 = k
    · simp [Function.comp, hpk]
    · simp [Function.comp, hpk]
  · unfold dict_set
    rw [if_neg h, if_neg h]
    have hany : ((params ++ [(k, a)]).any (fun p => p.1 = k)) = true := by simp
    rw [if_pos hany, List.map_append, map_set_of_key_absent params k b h]
    simp

/-- The key check of `dict_set` in terms of key membership. -/
theorem any_key_iff (params : Params α) (k : String) :
    (params.any (fun p => p.1 = k) = true) ↔ k ∈ params.map Prod.fst := by
  simp only [List.any_eq_true, List.mem_map, decide_eq_true_eq]

/-! ### Characterisation of the `convert_operator` loops -/

theorem append4_eq_of_data (f p x a b c : String)
    (h : x.data = a.data ++ b.data ++ c.data) :
    f ++ x ++ p = f ++ a ++ b ++ c ++ p := by
  apply String.ext
  simp [h, List.append_assoc]

theorem render_comparison_supported (f p op : String) (h : supported_op op = true) :
    render_comparison f p op = some (f ++ " " ++ sql_symbol op ++ " :" ++ p) := by
  simp only [supported_op, Bool.or_eq_true, decide_eq_true_eq] at h
  rcases h with (((((h | h) | h) | h) | h) | h) <;> subst h
  · exact congrArg some (append4_eq_of_data f p " = :" " " "=" " :" (by decide))
  · exact congrArg some (append4_eq_of_data f p " != :" " " "!=" " :" (by decide))
  · exact congrArg some (append4_eq_of_data f p " < :" " " "<" " :" (by decide))
  · exact congrArg some (append4_eq_of_data f p " <= :" " " "<=" " :" (by decide))
  · exact congrArg some (append4_eq_of_data f p " > :" " " ">" " :" (by decide))
  · exact congrArg some (append4_eq_of_data f p " >= :" " " ">=" " :" (by decide))

theorem render_comparison_unsupported (f p op : String) (h : supported_op op = false) :
    render_comparison f p op = none := by
  by_cases h1 : op = "$eq"
  · rw [h1] at h; exact absurd h (by decide)
  by_cases h2 : op = "$ne"
  · rw [h2] at h; exact absurd h (by decide)
  by_cases h3 : op = "$lt"
  · rw [h3] at h; exact absurd h (by decide)
  by_cases h4 : op = "$lte"
  · rw [h4] at h; exact absurd h (by decide)
  by_cases h5 : op = "$gt"
  · rw [h5] at h; exact absurd h (by decide)
  by_cases h6 : op = "$gte"
  · rw [h6] at h; exact absurd h (by decide)
  simp [render_comparison, h1, h2, h3, h4, h5, h6]

theorem convert_conds_spec (field pn : String) (conds : List (String × α))
    (sqlParts : List String) (params : Params α) :
    convert_conds field pn conds sqlParts params =
      (sqlParts ++ (conds.filter (fun c => supported_op c.1)).map
          (fun c => field ++ " " ++ sql_symbol c.1 ++ " :" ++ pn),
       conds.foldl (fun acc c => dict_set acc pn c.2) params) := by
  induction conds generalizing sqlParts params with
  | nil => simp [convert_conds]
  | cons c rest ih =>
      obtain ⟨op, v⟩ := c
      by_cases h : supported_op op = true
      · have hrender := render_comparison_supported field pn op h
        simp only [convert_conds, hrender]
        rw [ih]
        simp [List.filter_cons, h, List.append_assoc]
      · have h' : supported_op op = false := by simpa using h
        have hrender := render_comparison_unsupported field pn op h'
        simp only [convert_conds, hrender]
        rw [ih]
        simp [List.filter_cons, h']

theorem foldl_dict_set_last (pn : String) (conds : List (String × α)) (h : conds ≠ [])
    (params : Params α) :
    conds.foldl (fun acc c => dict_set acc pn c.2) params =
      dict_set params pn (conds.getLast h).2 := by
  induction conds generalizing params with
  | nil => exact absurd rfl h
  | cons c rest ih =>
      by_cases hr : rest = []
      · subst hr; simp [List.foldl]
      · rw [List.foldl_cons, ih hr, dict_set_idem]
        congr 1
        exact congrArg Prod.snd (List.getLast_cons hr).symm


/-! ### Characterisation of `convert_fields` and `convert_operator` -/

theorem convert_fields_spec (st : Stmt α) (fields sqlParts : List String) (params : Params α) :
    convert_fields st fields sqlParts params =
      (st.foldl (fun acc fc => add_field acc fc.1) fields,
       sqlParts ++ stmt_sql st,
       stmt_params params st) := by
  induction st generalizing fields sqlParts params with
  | nil => simp [convert_fields, stmt_sql, stmt_params]
  | cons fc rest ih =>
      obtain ⟨field, conds⟩ := fc
      simp only [convert_fields, convert_conds_spec, ih, stmt_sql, stmt_params,
        List.map_cons, List.flatten_cons, List.foldl_cons, List.append_assoc]

theorem convert_operator_spec (fields : List String) (st : Stmt α) :
    convert_operator fields st =
      (st.foldl (fun acc fc => add_field acc fc.1) fields,
       str_join " AND " (stmt_sql st),
       stmt_params [] st) := by
  unfold convert_operator
  rw [convert_fields_spec]
  simp

/-! ### Claims C2, C4, C5, C6 -/

/-- Claim C2 (code bug evaluation): the repository's own tests
(`test_single_statement`) and the spec expect a top-level selector wrapping a
single statement to delegate to the statement compiler and wrap the result in
parentheses, i.e. `("(age = :age)", {"age": 30})`; but `query_selector_to_sql`
has no top-level `"statement"` branch, so on
`{"statement": {"age": {"$eq": 30}}}` it returns the empty fragment and the
empty parameter mapping. -/
theorem claim_c2 :
    query_selector_to_sql []
      (Selector.node (some [("age", [("$eq", Scalar.int 30)])]) none) = ([], "", []) := by
  simp [query_selector_to_sql]

/-- Claim C4: a statement mapping one field to several supported
operator/value pairs renders one comparison per operator — all sharing the
single placeholder derived from the field name — joined by `" AND "`, and
binds that placeholder to the value of the last pair (last-write-wins). -/
theorem claim_c4 (field : String) (conds : List (String × α)) (fields : List String)
    (h1 : conds ≠ []) (h2 : ∀ c ∈ conds, supported_op c.1 = true) :
    convert_operator fields [(field, conds)] =
      (add_field fields field,
       str_join " AND " (conds.map (fun c => spec_comparison field c.1)),
       [(param_name_of field, (conds.getLast h1).2)]) := by
  rw [convert_operator_spec]
  have hfilter : conds.filter (fun c => supported_op c.1) = conds :=
    List.filter_eq_self.2 (fun c hc => h2 c hc)
  have hsql : stmt_sql [(field, conds)] = conds.map (fun c => spec_comparison field c.1) := by
    simp [stmt_sql, hfilter, spec_comparison]
  have hparams : stmt_params ([] : Params α) [(field, conds)] =
      [(param_name_of field, (conds.getLast h1).2)] := by
    simp only [stmt_params, List.foldl_cons, List.foldl_nil]
    rw [foldl_dict_set_last _ _ h1]
    rfl
  simp [hsql, hparams]

/-- Claim C4 witness: the spec's range example
`{"age": {"$gte": 18, "$lte": 30}}` yields the fragment
`"age >= :age AND age <= :age"` with parameters `{"age": 30}`. -/
theorem claim_c4_witness :
    convert_operator [] [("age", [("$gte", Scalar.int 18), ("$lte", Scalar.int 30)])] =
      (["age"], "age >= :age AND age <= :age", [("age", Scalar.int 30)]) := by
  have h := claim_c4 "age" [("$gte", Scalar.int 18), ("$lte", Scalar.int 30)] []
    (by decide) (by decide)
  rw [h]
  decide

/-- Claim C5 counterexample: an unsupported operator key emits no comparison
fragment but does bind a parameter — `params[param_name] = value` runs before
the operator dispatch — so `{"age": {"$foo": 5}}` compiles to the empty
fragment with the parameter `age` bound to `5`, contradicting the claim that
no parameter is bound for a skipped pair. -/
theorem claim_c5_counterexample :
    convert_operator [] [("age", [("$foo", Scalar.int 5)])] =
      (["age"], "", [("age", Scalar.int 5)]) := by
  decide

/-- Claim C5 (amended): a statement field with a mix of supported and
unsupported operator keys renders comparisons only for the supported keys
(unsupported pairs contribute no fragment and compilation does not fail), but
every pair — supported or not — writes the field's single placeholder, so the
bound value is the value of the last pair overall. -/
theorem claim_c5 (field : String) (conds : List (String × α)) (fields : List String)
    (h1 : conds ≠ []) :
    convert_operator fields [(field, conds)] =
      (add_field fields field,
       str_join " AND " ((conds.filter (fun c => supported_op c.1)).map
          (fun c => spec_comparison field c.1)),
       [(param_name_of field, (conds.getLast h1).2)]) := by
  rw [convert_operator_spec]
  have hsql : stmt_sql [(field, conds)] =
      (conds.filter (fun c => supported_op c.1)).map (fun c => spec_comparison field c.1) := by
    simp [stmt_sql, spec_comparison]
  have hparams : stmt_params ([] : Params α) [(field, conds)] =
      [(param_name_of field, (conds.getLast h1).2)] := by
    simp only [stmt_params, List.foldl_cons, List.foldl_nil]
    rw [foldl_dict_set_last _ _ h1]
    rfl
  simp [hsql, hparams]

/-- Claim C5 witness: `{"age": {"$gte": 18, "$foo": 99}}` renders only the
supported comparison `"age >= :age"` yet binds `age` to `99`, the value of the
last (unsupported) pair. -/
theorem claim_c5_witness :
    convert_operator [] [("age", [("$gte", Scalar.int 18), ("$foo", Scalar.int 99)])] =
      (["age"], "age >= :age", [("age", Scalar.int 99)]) := by
  have h := claim_c5 "age" [("$gte", Scalar.int 18), ("$foo", Scalar.int 99)] [] (by decide)
  rw [h]
  decide

/-- Claim C6 counterexample: a child of an `"$and"` connective carrying both a
`"statement"` key and an `"operator"` key compiles along the statement path —
the operator part is ignored — because `if "statement" in condition` is
checked before `elif "operator" in condition`.  The first conjunct evaluates
such a child (statement on field `a`, operator wrapping field `b`) to
`("(a = :a)", {"a": 1})`; the second shows that removing the statement key
makes the operator path produce the different result `("((b = :b))", {"b": 2})`,
so the claimed operator precedence does not hold. -/
theorem claim_c6_counterexample :
    query_selector_to_sql []
      (Selector.node none (some [("$and",
        [Selector.node (some [("a", [("$eq", Scalar.int 1)])])
          (some [("$or", [Selector.node (some [("b", [("$eq", Scalar.int 2)])]) none])])])])) =
      (["a"], "(a = :a)", [("a", Scalar.int 1)]) ∧
    query_selector_to_sql []
      (Selector.node none (some [("$and",
        [Selector.node none
          (some [("$or", [Selector.node (some [("b", [("$eq", Scalar.int 2)])]) none])])])])) =
      (["b"], "((b = :b))", [("b", Scalar.int 2)]) := by
  constructor
  · simp [query_selector_to_sql, process_keys, process_conditions, convert_operator,
      convert_fields, convert_conds, render_comparison, dict_update, dict_set,
      add_field, param_name_of, str_join]
  · simp [query_selector_to_sql, process_keys, process_conditions, convert_operator,
      convert_fields, convert_conds, render_comparison, dict_update, dict_set,
      add_field, param_name_of, str_join]

/-- Claim C6 (amended): for a child of a connective declaring both a
`"statement"` and an `"operator"` key, compilation deterministically ignores
the operator and takes the statement path (statement precedence, the opposite
of the claimed direction): the compile result is identical to that of the same
child with its operator entry removed.  A child declaring neither key
contributes nothing: the compile result is identical to that of the child list
without it. -/
theorem claim_c6 (stTop : Option (Stmt α)) (key : String) (st : Stmt α)
    (opPart : Option (List (String × List (Selector α)))) (more : List (Selector α))
    (fields : List String) :
    query_selector_to_sql fields
        (Selector.node stTop (some [(key, Selector.node (some st) opPart :: more)])) =
      query_selector_to_sql fields
        (Selector.node stTop (some [(key, Selector.node (some st) none :: more)])) ∧
    query_selector_to_sql fields
        (Selector.node stTop (some [(key, Selector.node none none :: more)])) =
      query_selector_to_sql fields (Selector.node stTop (some [(key, more)])) := by
  constructor
  · simp [query_selector_to_sql, process_keys, process_conditions]
  · simp [query_selector_to_sql, process_keys, process_conditions]

/-! ### Fields-independence: the fragment and parameters do not depend on the
accumulated field set passed into a compile call -/

theorem process_conditions_fields_indep {α : Type} (conds : List (Selector α)) :
    ∀ (f1 f2 sub : List String) (par : Params α),
      (process_conditions f1 conds sub par).2 = (process_conditions f2 conds sub par).2 := by
  refine process_conditions.induct
    (fun _ conds _ _ => ∀ (f1 f2 sub : List String) (par : Params α),
      (process_conditions f1 conds sub par).2 = (process_conditions f2 conds sub par).2)
    (fun _ s => ∀ (f1 f2 : List String),
      (query_selector_to_sql f1 s).2 = (query_selector_to_sql f2 s).2)
    (fun _ opMap _ _ => ∀ (f1 f2 sql : List String) (par : Params α),
      (process_keys f1 opMap sql par).2 = (process_keys f2 opMap sql par).2)
    ?_ ?_ ?_ ?_ ?_ ?_ ?_ ?_ [] conds [] []
  · intro _ _ _ f1 f2 sub par
    simp [process_conditions]
  · intro _ _ _ st op rest r ih f1 f2 sub par
    have hco : ∀ f : List String, (convert_operator f st).2 =
        (str_join " AND " (stmt_sql st), stmt_params [] st) := fun f => by
      rw [convert_operator_spec]
    simp only [process_conditions]
    rw [congrArg Prod.fst (hco f1), congrArg Prod.fst (hco f2),
        congrArg Prod.snd (hco f1), congrArg Prod.snd (hco f2)]
    exact ih _ _ _ _
  · intro _ _ _ om rest r ih2 ih1 f1 f2 sub par
    have h := ih2 f1 f2
    simp only [process_conditions]
    rw [congrArg Prod.fst h, congrArg Prod.snd h]
    exact ih1 _ _ _ _
  · intro _ _ _ rest ih f1 f2 sub par
    simp only [process_conditions]
    exact ih _ _ _ _
  · intro _ st f1 f2
    simp [query_selector_to_sql]
  · intro _ st opMap ih3 f1 f2
    simp only [query_selector_to_sql]
    have h := ih3 f1 f2 [] []
    rw [congrArg Prod.fst h, congrArg Prod.snd h]
  · intro _ _ _ f1 f2 sql par
    simp [process_keys]
  · intro _ _ _ key conds rest r sq ih1 ih3 f1 f2 sql par
    have h := ih1 f1 f2 [] par
    simp only [process_keys]
    rw [congrArg Prod.fst h, congrArg Prod.snd h]
    exact ih3 _ _ _ _

theorem query_selector_fields_indep {α : Type} (s : Selector α) (f1 f2 : List String) :
    (query_selector_to_sql f1 s).2 = (query_selector_to_sql f2 s).2 := by
  obtain ⟨st, op⟩ := s
  cases op with
  | none => simp [query_selector_to_sql]
  | some opMap =>
      simp only [query_selector_to_sql]
      have h := process_conditions_fields_indep (α := α)
      have hk : ∀ (m : List (String × List (Selector α))) (g1 g2 sql : List String) (par : Params α),
          (process_keys g1 m sql par).2 = (process_keys g2 m sql par).2 := by
        intro m
        induction m with
        | nil => intro g1 g2 sql par; simp [process_keys]
        | cons kc rest ih =>
            intro g1 g2 sql par
            obtain ⟨key, conds⟩ := kc
            have hc := h conds g1 g2 [] par
            simp only [process_keys]
            rw [congrArg Prod.fst hc, congrArg Prod.snd hc]
            exact ih _ _ _ _
      have hq := hk opMap f1 f2 [] []
      rw [congrArg Prod.fst hq, congrArg Prod.snd hq]

theorem process_keys_fields_indep {α : Type} (opMap : List (String × List (Selector α)))
    (f1 f2 sql : List String) (par : Params α) :
    (process_keys f1 opMap sql par).2 = (process_keys f2 opMap sql par).2 := by
  induction opMap generalizing f1 f2 sql par with
  | nil => simp [process_keys]
  | cons kc rest ih =>
      obtain ⟨key, conds⟩ := kc
      have hc := process_conditions_fields_indep conds f1 f2 [] par
      simp only [process_keys]
      rw [congrArg Prod.fst hc, congrArg Prod.snd hc]
      exact ih _ _ _ _

/-! ### Structural characterisation of `query_selector_to_sql` -/

theorem child_sql_statement (st : Stmt α) (op : Option (List (String × List (Selector α))))
    (fields : List String) :
    (convert_operator fields st).2.1 = child_sql (Selector.node (some st) op) ∧
    (convert_operator fields st).2.2 = child_params (Selector.node (some st) op) := by
  constructor
  · show _ = (convert_operator [] st).2.1
    rw [convert_operator_spec, convert_operator_spec]
  · show _ = (convert_operator [] st).2.2
    rw [convert_operator_spec, convert_operator_spec]

theorem process_conditions_spec (conds : List (Selector α)) (fields sub : List String)
    (par : Params α) :
    (process_conditions fields conds sub par).2 =
      (sub ++ child_sql_list conds, child_params_fold par conds) := by
  induction conds generalizing fields sub par with
  | nil => simp [process_conditions, child_sql_list, child_params_fold]
  | cons c rest ih =>
      match c with
      | .node (some st) op =>
          have h1 := (child_sql_statement st op fields).1
          have h2 := (child_sql_statement st op fields).2
          simp only [process_conditions, h1, h2, ih]
          simp [child_sql_list, child_params_fold, has_contribution, List.filterMap_cons,
            List.append_assoc]
      | .node none (some om) =>
          have h := query_selector_fields_indep (Selector.node none (some om)) fields []
          have h1 : (query_selector_to_sql fields (Selector.node none (some om))).2.1 =
              child_sql (Selector.node none (some om)) := congrArg Prod.fst h
          have h2 : (query_selector_to_sql fields (Selector.node none (some om))).2.2 =
              child_params (Selector.node none (some om)) := congrArg Prod.snd h
          simp only [process_conditions, h1, h2, ih]
          simp [child_sql_list, child_params_fold, has_contribution, List.filterMap_cons,
            List.append_assoc]
      | .node none none =>
          simp only [process_conditions, ih]
          have hp : child_params (Selector.node none none) = ([] : Params α) := by
            simp [child_params, query_selector_to_sql]
          simp [child_sql_list, child_params_fold, has_contribution, List.filterMap_cons, hp,
            dict_update]

theorem process_keys_spec (opMap : List (String × List (Selector α)))
    (fields sql : List String) (par : Params α) :
    (process_keys fields opMap sql par).2 =
      (sql ++ key_sql_list opMap, key_params_fold par opMap) := by
  induction opMap generalizing fields sql par with
  | nil => simp [process_keys, key_sql_list, key_params_fold]
  | cons kc rest ih =>
      obtain ⟨key, conds⟩ := kc
      have hc := process_conditions_spec conds fields [] par
      simp only [process_keys, congrArg Prod.fst hc, congrArg Prod.snd hc, ih]
      by_cases hand : key = "$and"
      · simp [hand, key_sql_list, key_params_fold, List.filterMap_cons, List.append_assoc]
      · by_cases hor : key = "$or"
        · simp [hand, hor, key_sql_list, key_params_fold, List.filterMap_cons, List.append_assoc]
        · simp [hand, hor, key_sql_list, key_params_fold, List.filterMap_cons]

theorem query_selector_spec (st : Option (Stmt α))
    (opMap : List (String × List (Selector α))) (fields : List String) :
    (query_selector_to_sql fields (Selector.node st (some opMap))).2 =
      (if key_sql_list opMap = [] then "" else str_join " AND " (key_sql_list opMap),
       key_params_fold [] opMap) := by
  have hk := process_keys_spec opMap fields [] ([] : Params α)
  simp only [query_selector_to_sql, congrArg Prod.fst hk, congrArg Prod.snd hk]
  simp

/-! ### Claim C3 -/

theorem child_sql_list_of_all_contribute (children : List (Selector α))
    (h : ∀ c ∈ children, has_contribution c = true) :
    child_sql_list children = children.map (fun c => "(" ++ child_sql c ++ ")") := by
  induction children with
  | nil => rfl
  | cons c rest ih =>
      have hc := h c (List.mem_cons_self c rest)
      simp only [child_sql_list, List.filterMap_cons, hc, if_pos, List.map_cons]
      rw [← child_sql_list]
      rw [ih (fun x hx => h x (List.mem_cons_of_mem c hx))]

/-- Claim C3: for an operator node with connective `"$and"` and children
`C1..Cn` that each carry a `"statement"` or `"operator"` key, the compiled
fragment is the children's compiled fragments (statement children via
`convert_operator`, operator children via recursive `query_selector_to_sql`),
each wrapped in parentheses and joined by `" AND "` in child order; the same
holds for `"$or"` with the `" OR "` joiner; and the returned parameter mapping
is the merge of the children's mappings, later children overwriting earlier
ones (`dict_update` folded left over the children). -/
theorem claim_c3 (children : List (Selector α)) (stTop : Option (Stmt α))
    (fields : List String) (h : ∀ c ∈ children, has_contribution c = true) :
    (query_selector_to_sql fields (Selector.node stTop (some [("$and", children)]))).2 =
      (str_join " AND " (children.map (fun c => "(" ++ child_sql c ++ ")")),
       children.foldl (fun acc c => dict_update acc (child_params c)) []) ∧
    (query_selector_to_sql fields (Selector.node stTop (some [("$or", children)]))).2 =
      (str_join " OR " (children.map (fun c => "(" ++ child_sql c ++ ")")),
       children.foldl (fun acc c => dict_update acc (child_params c)) []) := by
  have hmap := child_sql_list_of_all_contribute children h
  constructor
  · rw [query_selector_spec]
    simp [key_sql_list, key_params_fold, hmap, child_params_fold, str_join]
  · rw [query_selector_spec]
    simp [key_sql_list, key_params_fold, hmap, child_params_fold, str_join]

/-- Claim C3 witness: the spec's `"$and"` scenario — two statement children on
`age` and `country` — compiles to
`"(age >= :age) AND (country = :country)"` with both parameters bound, and the
`"$or"` variant to the `" OR "`-joined fragment. -/
theorem claim_c3_witness :
    (query_selector_to_sql []
      (Selector.node none (some [("$and",
        [Selector.node (some [("age", [("$gte", Scalar.int 18)])]) none,
         Selector.node (some [("country", [("$eq", Scalar.str "Germany")])]) none])]))).2 =
      ("(age >= :age) AND (country = :country)",
       [("age", Scalar.int 18), ("country", Scalar.str "Germany")]) ∧
    (query_selector_to_sql []
      (Selector.node none (some [("$or",
        [Selector.node (some [("age", [("$gte", Scalar.int 18)])]) none,
         Selector.node (some [("country", [("$eq", Scalar.str "Germany")])]) none])]))).2 =
      ("(age >= :age) OR (country = :country)",
       [("age", Scalar.int 18), ("country", Scalar.str "Germany")]) := by
  have h := claim_c3
    ([Selector.node (some [("age", [("$gte", Scalar.int 18)])]) none,
      Selector.node (some [("country", [("$eq", Scalar.str "Germany")])]) none])
    none [] (by decide)
  obtain ⟨h1, h2⟩ := h
  constructor
  · rw [h1]; decide
  · rw [h2]; decide

/-! ### Claim C1: values never reach the fragment -/

theorem map_params_dict_set (f : α → β) (params : Params α) (k : String) (v : α) :
    map_params f (dict_set params k v) = dict_set (map_params f params) k (f v) := by
  have hany : ∀ (q : Params α),
      (List.map (fun p => (p.1, f p.2)) q).any (fun p => p.1 = k) =
        q.any (fun p => p.1 = k) := by
    intro q
    induction q with
    | nil => rfl
    | cons p rest ih => simp only [List.map_cons, List.any_cons, ih]
  unfold dict_set map_params
  rw [hany params]
  by_cases h : params.any (fun p => p.1 = k) = true
  · rw [if_pos h, if_pos h, List.map_map, List.map_map]
    apply List.map_congr_left
    intro p _
    by_cases hpk : p.1 = k
    · simp [Function.comp, hpk]
    · simp [Function.comp, hpk]
  · rw [if_neg h, if_neg h]
    simp

theorem map_params_dict_update (f : α → β) (params q : Params α) :
    map_params f (dict_update params q) = dict_update (map_params f params) (map_params f q) := by
  induction q generalizing params with
  | nil => rfl
  | cons p rest ih =>
      show map_params f (dict_update (dict_set params p.1 p.2) rest) = _
      rw [ih, map_params_dict_set]
      rfl

theorem convert_conds_map (f : α → β) (field pn : String) (conds : List (String × α))
    (sqlParts : List String) (params : Params α) :
    convert_conds field pn (conds.map (fun c => (c.1, f c.2))) sqlParts (map_params f params) =
      ((convert_conds field pn conds sqlParts params).1,
       map_params f (convert_conds field pn conds sqlParts params).2) := by
  induction conds generalizing sqlParts params with
  | nil => simp [convert_conds]
  | cons c rest ih =>
      obtain ⟨op, v⟩ := c
      simp only [List.map_cons, convert_conds]
      rw [← map_params_dict_set]
      exact ih _ _

theorem convert_fields_map (f : α → β) (st : Stmt α) (fields sqlParts : List String)
    (params : Params α) :
    convert_fields (map_stmt f st) fields sqlParts (map_params f params) =
      ((convert_fields st fields sqlParts params).1,
       (convert_fields st fields sqlParts params).2.1,
       map_params f (convert_fields st fields sqlParts params).2.2) := by
  induction st generalizing fields sqlParts params with
  | nil => simp [convert_fields, map_stmt]
  | cons fc rest ih =>
      obtain ⟨field, conds⟩ := fc
      have hm : map_stmt f ((field, conds) :: rest) =
          (field, conds.map (fun c => (c.1, f c.2))) :: map_stmt f rest := rfl
      rw [hm]
      simp only [convert_fields]
      rw [convert_conds_map]
      dsimp only
      rw [ih]

theorem convert_operator_map (f : α → β) (st : Stmt α) (fields : List String) :
    convert_operator fields (map_stmt f st) =
      ((convert_operator fields st).1,
       (convert_operator fields st).2.1,
       map_params f (convert_operator fields st).2.2) := by
  have h := convert_fields_map f st fields [] ([] : Params α)
  have h0 : map_params f ([] : Params α) = [] := rfl
  rw [h0] at h
  unfold convert_operator
  rw [h]

/-- Claim C1: no value from a selector is ever interpolated into the compiled
SQL fragment.  Substituting every value of a selector through an arbitrary
function `f` (in particular, replacing all values — even ones containing SQL
metacharacters — by anything else) leaves the collected field set and the
compiled fragment byte-for-byte identical, and changes the returned parameter
mapping only by applying `f` to the stored values, keeping all placeholder
keys: values travel exclusively through the out-of-band parameter mapping. -/
theorem claim_c1 {α β : Type} (f : α → β) (s : Selector α) (fields : List String) :
    query_selector_to_sql fields (map_values f s) =
      ((query_selector_to_sql fields s).1,
       (query_selector_to_sql fields s).2.1,
       map_params f (query_selector_to_sql fields s).2.2) := by
  refine query_selector_to_sql.induct
    (fun _ conds _ _ => ∀ (fields sub : List String) (par : Params α),
      process_conditions fields (map_children f conds) sub (map_params f par) =
        ((process_conditions fields conds sub par).1,
         (process_conditions fields conds sub par).2.1,
         map_params f (process_conditions fields conds sub par).2.2))
    (fun _ s => ∀ (fields : List String),
      query_selector_to_sql fields (map_values f s) =
        ((query_selector_to_sql fields s).1,
         (query_selector_to_sql fields s).2.1,
         map_params f (query_selector_to_sql fields s).2.2))
    (fun _ m _ _ => ∀ (fields sql : List String) (par : Params α),
      process_keys fields (map_op_entries f m) sql (map_params f par) =
        ((process_keys fields m sql par).1,
         (process_keys fields m sql par).2.1,
         map_params f (process_keys fields m sql par).2.2))
    ?_ ?_ ?_ ?_ ?_ ?_ ?_ ?_ [] s fields
  · intro _ _ _ fields sub par
    simp [process_conditions, map_children]
  · intro _ _ _ st op rest r ih fields sub par
    cases op with
    | none =>
        simp only [map_children, map_values, Option.map_some']
        simp only [process_conditions, convert_operator_map]
        rw [← map_params_dict_update]
        exact ih _ _ _
    | some om =>
        simp only [map_children, map_values, Option.map_some']
        simp only [process_conditions, convert_operator_map]
        rw [← map_params_dict_update]
        exact ih _ _ _
  · intro _ _ _ om rest r ih2 ih1 fields sub par
    have ih2' := ih2 fields
    simp only [map_values, Option.map_none'] at ih2'
    simp only [map_children, map_values, Option.map_none']
    simp only [process_conditions, ih2']
    rw [← map_params_dict_update]
    exact ih1 _ _ _
  · intro _ _ _ rest ih fields sub par
    simp only [map_children, map_values, Option.map_none']
    simp only [process_conditions]
    exact ih _ _ _
  · intro _ st fields
    simp [map_values, query_selector_to_sql, map_params]
  · intro _ st opMap ih3 fields
    have h := ih3 fields [] ([] : Params α)
    have h0 : map_params f ([] : Params α) = [] := rfl
    rw [h0] at h
    simp only [map_values, query_selector_to_sql, h]
  · intro _ _ _ fields sql par
    simp [process_keys, map_op_entries]
  · intro _ _ _ key conds rest r sq ih1 ih3 fields sql par
    simp only [map_op_entries, process_keys]
    rw [ih1]
    dsimp only
    exact ih3 _ _ _

/-! ### Scanner lemmas -/

theorem scan_aux_append_safe (d : Char) (bs : List Char)
    (hw : word_char d = false) (hc : d ≠ ':') :
    ∀ (a : List Char) (cur : Option (List Char)),
      scan_aux (a ++ d :: bs) cur = scan_aux a cur ++ scan_aux (d :: bs) none := by
  intro a
  induction a with
  | nil =>
      intro cur
      cases cur with
      | none => simp [scan_aux]
      | some t => simp [scan_aux, hw, hc]
  | cons c a' ih =>
      intro cur
      have hscan : scan_aux (d :: bs) none = scan_aux bs none := by
        simp only [scan_aux, if_neg hc]
      have ih' : ∀ cur', scan_aux (a' ++ d :: bs) cur' = scan_aux a' cur' ++ scan_aux bs none := by
        intro cur'
        rw [ih cur', hscan]
      cases cur with
      | none =>
          by_cases hcc : c = ':'
          · simp only [List.cons_append, scan_aux, if_pos hcc, if_neg hc]
            exact ih' _
          · simp only [List.cons_append, scan_aux, if_neg hcc, if_neg hc]
            exact ih' _
      | some t =>
          by_cases hwc : word_char c = true
          · simp only [List.cons_append, scan_aux, if_pos hwc, if_neg hc]
            exact ih' _
          · simp only [List.cons_append, scan_aux, if_neg hwc, if_neg hc]
            exact congrArg _ (ih' _)

theorem scan_aux_colon_free (a : List Char) (h : ∀ c ∈ a, c ≠ ':') :
    ∀ (b : List Char), scan_aux (a ++ b) none = scan_aux b none := by
  induction a with
  | nil => intro b; rfl
  | cons c a' ih =>
      intro b
      have hc : c ≠ ':' := h c (List.mem_cons_self c a')
      simp only [List.cons_append, scan_aux, if_neg hc]
      exact ih (fun x hx => h x (List.mem_cons_of_mem c hx)) b

theorem scan_aux_all_word (w : List Char) (hw : ∀ c ∈ w, word_char c = true) :
    ∀ (acc : List Char), scan_aux w (some acc) = [String.mk (acc.reverse ++ w)] := by
  induction w with
  | nil => intro acc; simp [scan_aux]
  | cons c w' ih =>
      intro acc
      have hc : word_char c = true := hw c (List.mem_cons_self c w')
      simp only [scan_aux, if_pos hc, ih (fun x hx => hw x (List.mem_cons_of_mem c hx))]
      simp [List.append_assoc]

theorem extract_pre_colon (pre w : String) (hpre : ∀ c ∈ pre.data, c ≠ ':')
    (hw : ∀ c ∈ w.data, word_char c = true) :
    extract_placeholders (pre ++ ":" ++ w) = [w] := by
  unfold extract_placeholders
  have hdata : (pre ++ ":" ++ w).data = pre.data ++ (':' :: w.data) := by
    rw [String.data_append, String.data_append,
        show (":" : String).data = [':'] from rfl]
    simp
  rw [hdata, scan_aux_colon_free pre.data hpre]
  show scan_aux (':' :: w.data) none = [w]
  simp only [scan_aux, if_pos rfl]
  rw [scan_aux_all_word w.data hw]
  simp

theorem extract_join (d : Char) (ds : List Char) (sep : String)
    (hsep : sep.data = d :: ds) (hw : word_char d = false)
    (hcolon : ∀ c ∈ sep.data, c ≠ ':') (parts : List String) :
    extract_placeholders (str_join sep parts) = (parts.map extract_placeholders).flatten := by
  induction parts with
  | nil => rfl
  | cons p rest ih =>
      cases rest with
      | nil => simp [str_join]
      | cons q rest' =>
          have hd : d ≠ ':' := hcolon d (by rw [hsep]; exact List.mem_cons_self d ds)
          have hjoin : str_join sep (p :: q :: rest') = p ++ sep ++ str_join sep (q :: rest') := rfl
          rw [hjoin]
          unfold extract_placeholders
          have hdata : (p ++ sep ++ str_join sep (q :: rest')).data =
              p.data ++ (d :: (ds ++ (str_join sep (q :: rest')).data)) := by
            rw [String.data_append, String.data_append, hsep]
            simp
          rw [hdata, scan_aux_append_safe d _ hw hd]
          have hback : d :: (ds ++ (str_join sep (q :: rest')).data) =
              sep.data ++ (str_join sep (q :: rest')).data := by
            rw [hsep]; rfl
          rw [hback, scan_aux_colon_free sep.data hcolon]
          rw [← extract_placeholders, ← extract_placeholders, ih]
          simp only [List.map_cons, List.flatten_cons]
          rfl

theorem extract_paren (x : String) :
    extract_placeholders ("(" ++ x ++ ")") = extract_placeholders x := by
  unfold extract_placeholders
  have hdata : ("(" ++ x ++ ")").data = '(' :: (x.data ++ [')']) := by
    rw [String.data_append, String.data_append,
        show ("(" : String).data = ['('] from rfl,
        show (")" : String).data = [')'] from rfl]
    simp
  rw [hdata]
  have h1 : scan_aux ('(' :: (x.data ++ [')'])) none = scan_aux (x.data ++ [')']) none := by
    simp [scan_aux]
  rw [h1, scan_aux_append_safe ')' [] (by decide) (by decide) x.data none]
  have h2 : scan_aux [')'] none = [] := by simp [scan_aux]
  rw [h2, List.append_nil]

/-! ### Parameter-key lemmas -/

theorem keys_map_overwrite (p : Params α) (k : String) (v : α) :
    param_keys (p.map (fun q => if q.1 = k then (k, v) else q)) = param_keys p := by
  unfold param_keys
  rw [List.map_map]
  apply List.map_congr_left
  intro q _
  by_cases hq : q.1 = k
  · simp [Function.comp, hq]
  · simp [Function.comp, hq]

theorem keys_dict_set_mem (p : Params α) (k : String) (v : α) (x : String) :
    x ∈ param_keys (dict_set p k v) ↔ x ∈ param_keys p ∨ x = k := by
  unfold dict_set
  by_cases h : p.any (fun q => q.1 = k) = true
  · rw [if_pos h, keys_map_overwrite]
    have hk : k ∈ param_keys p := (any_key_iff p k).1 h
    constructor
    · exact Or.inl
    · rintro (hx | rfl)
      · exact hx
      · exact hk
  · rw [if_neg h]
    unfold param_keys
    simp

theorem nodup_keys_dict_set (p : Params α) (k : String) (v : α)
    (h : (param_keys p).Nodup) : (param_keys (dict_set p k v)).Nodup := by
  unfold dict_set
  by_cases hk : p.any (fun q => q.1 = k) = true
  · rw [if_pos hk, keys_map_overwrite]
    exact h
  · rw [if_neg hk]
    have hnot : k ∉ param_keys p := fun hc => hk ((any_key_iff p k).2 hc)
    unfold param_keys at *
    simp only [List.map_append, List.map_cons, List.map_nil]
    rw [List.nodup_append]
    refine ⟨h, List.nodup_singleton k, ?_⟩
    intro a ha hb
    simp only [List.mem_singleton] at hb
    subst hb
    exact hnot ha

theorem keys_dict_update_mem (p q : Params α) (x : String) :
    x ∈ param_keys (dict_update p q) ↔ x ∈ param_keys p ∨ x ∈ param_keys q := by
  induction q generalizing p with
  | nil => simp [dict_update, param_keys]
  | cons e q' ih =>
      show x ∈ param_keys (dict_update (dict_set p e.1 e.2) q') ↔ _
      rw [ih, keys_dict_set_mem]
      unfold param_keys
      simp only [List.map_cons, List.mem_cons]
      tauto

theorem nodup_keys_dict_update (p q : Params α)
    (h : (param_keys p).Nodup) : (param_keys (dict_update p q)).Nodup := by
  induction q generalizing p with
  | nil => exact h
  | cons e q' ih =>
      show (param_keys (dict_update (dict_set p e.1 e.2) q')).Nodup
      exact ih _ (nodup_keys_dict_set _ _ _ h)

theorem keys_child_params_fold_mem (conds : List (Selector α)) (p : Params α) (x : String) :
    x ∈ param_keys (child_params_fold p conds) ↔
      x ∈ param_keys p ∨ x ∈ param_keys (child_params_fold [] conds) := by
  induction conds generalizing p with
  | nil => simp [child_params_fold, param_keys]
  | cons c rest ih =>
      show x ∈ param_keys (child_params_fold (dict_update p (child_params c)) rest) ↔
        x ∈ param_keys p ∨ x ∈ param_keys (child_params_fold (dict_update [] (child_params c)) rest)
      rw [ih (dict_update p (child_params c)), ih (dict_update [] (child_params c)),
          keys_dict_update_mem, keys_dict_update_mem]
      simp only [param_keys, List.map_nil, List.not_mem_nil]
      tauto

theorem nodup_keys_child_params_fold (conds : List (Selector α)) (p : Params α)
    (h : (param_keys p).Nodup) : (param_keys (child_params_fold p conds)).Nodup := by
  induction conds generalizing p with
  | nil => exact h
  | cons c rest ih =>
      exact ih _ (nodup_keys_dict_update _ _ h)

theorem keys_key_params_fold_mem (opMap : List (String × List (Selector α)))
    (p : Params α) (x : String) :
    x ∈ param_keys (key_params_fold p opMap) ↔
      x ∈ param_keys p ∨ x ∈ param_keys (key_params_fold [] opMap) := by
  induction opMap generalizing p with
  | nil => simp [key_params_fold, param_keys]
  | cons kc rest ih =>
      show x ∈ param_keys (key_params_fold (child_params_fold p kc.2) rest) ↔
        x ∈ param_keys p ∨ x ∈ param_keys (key_params_fold (child_params_fold [] kc.2) rest)
      rw [ih (child_params_fold p kc.2), ih (child_params_fold [] kc.2),
          keys_child_params_fold_mem, keys_child_params_fold_mem]
      simp only [param_keys, List.map_nil, List.not_mem_nil]
      tauto

theorem nodup_keys_key_params_fold (opMap : List (String × List (Selector α)))
    (p : Params α) (h : (param_keys p).Nodup) :
    (param_keys (key_params_fold p opMap)).Nodup := by
  induction opMap generalizing p with
  | nil => exact h
  | cons kc rest ih =>
      exact ih _ (nodup_keys_child_params_fold _ _ h)

/-! ### Placeholder extraction from rendered comparisons -/

theorem word_char_of_clean_char (c : Char) (h : (word_char c || c = '.') = true) :
    word_char (if c = '.' then '_' else c) = true := by
  by_cases hc : c = '.'
  · rw [if_pos hc]; decide
  · rw [if_neg hc]
    simp only [Bool.or_eq_true, decide_eq_true_eq] at h
    rcases h with h | h
    · exact h
    · exact absurd h hc

theorem clean_char_no_colon (c : Char) (h : (word_char c || c = '.') = true) : c ≠ ':' := by
  intro hc
  subst hc
  exact absurd h (by decide)

theorem param_name_word (f : String) (h : clean_field f = true) :
    ∀ c ∈ (param_name_of f).data, word_char c = true := by
  intro c hc
  unfold param_name_of at hc
  simp only [String.mk] at hc
  rw [List.mem_map] at hc
  obtain ⟨c0, hc0, rfl⟩ := hc
  unfold clean_field at h
  rw [List.all_eq_true] at h
  exact word_char_of_clean_char c0 (by simpa using h c0 hc0)

theorem clean_field_no_colon (f : String) (h : clean_field f = true) :
    ∀ c ∈ f.data, c ≠ ':' := by
  intro c hc
  unfold clean_field at h
  rw [List.all_eq_true] at h
  exact clean_char_no_colon c (by simpa using h c hc)

theorem sql_symbol_colon_free (op : String) : ∀ c ∈ (sql_symbol op).data, c ≠ ':' := by
  unfold sql_symbol
  by_cases h1 : op = "$eq"
  · simp only [if_pos h1]; decide
  rw [if_neg h1]
  by_cases h2 : op = "$ne"
  · simp only [if_pos h2]; decide
  rw [if_neg h2]
  by_cases h3 : op = "$lt"
  · simp only [if_pos h3]; decide
  rw [if_neg h3]
  by_cases h4 : op = "$lte"
  · simp only [if_pos h4]; decide
  rw [if_neg h4]
  by_cases h5 : op = "$gt"
  · simp only [if_pos h5]; decide
  rw [if_neg h5]
  by_cases h6 : op = "$gte"
  · simp only [if_pos h6]; decide
  rw [if_neg h6]
  decide

theorem comparison_extract (f : String) (op : String) (h : clean_field f = true) :
    extract_placeholders (f ++ " " ++ sql_symbol op ++ " :" ++ param_name_of f) =
      [param_name_of f] := by
  have hsplit : f ++ " " ++ sql_symbol op ++ " :" ++ param_name_of f =
      (f ++ " " ++ sql_symbol op ++ " ") ++ ":" ++ param_name_of f := by
    apply String.ext
    simp [String.data_append, List.append_assoc]
  rw [hsplit]
  apply extract_pre_colon
  · intro c hc
    have hdata : (f ++ " " ++ sql_symbol op ++ " ").data =
        f.data ++ ([' '] ++ ((sql_symbol op).data ++ [' '])) := by
      simp [String.data_append, List.append_assoc]
    rw [hdata] at hc
    rcases List.mem_append.1 hc with hc | hc
    · exact clean_field_no_colon f h c hc
    rcases List.mem_append.1 hc with hc | hc
    · simp only [List.mem_singleton] at hc
      subst hc; decide
    rcases List.mem_append.1 hc with hc | hc
    · exact sql_symbol_colon_free op c hc
    · simp only [List.mem_singleton] at hc
      subst hc; decide
  · exact param_name_word f h

theorem stmt_sql_mem (st : Stmt α) (p : String) (hp : p ∈ stmt_sql st) :
    ∃ fc ∈ st, fc.2 ≠ [] ∧
      ∃ cnd ∈ fc.2, supported_op cnd.1 = true ∧
        p = fc.1 ++ " " ++ sql_symbol cnd.1 ++ " :" ++ param_name_of fc.1 := by
  unfold stmt_sql at hp
  rw [List.mem_flatten] at hp
  obtain ⟨l, hl, hpl⟩ := hp
  rw [List.mem_map] at hl
  obtain ⟨fc, hfc, rfl⟩ := hl
  rw [List.mem_map] at hpl
  obtain ⟨cnd, hcnd, rfl⟩ := hpl
  rw [List.mem_filter] at hcnd
  refine ⟨fc, hfc, ?_, cnd, hcnd.1, hcnd.2, rfl⟩
  intro hnil
  rw [hnil] at hcnd
  exact absurd hcnd.1 (List.not_mem_nil cnd)

theorem keys_foldl_dict_set_mem (pn : String) (conds : List (String × α)) (p : Params α)
    (x : String) :
    x ∈ param_keys (conds.foldl (fun a c => dict_set a pn c.2) p) ↔
      x ∈ param_keys p ∨ (conds ≠ [] ∧ x = pn) := by
  induction conds generalizing p with
  | nil => simp
  | cons c rest ih =>
      rw [List.foldl_cons, ih, keys_dict_set_mem]
      constructor
      · rintro ((hx | rfl) | ⟨_, rfl⟩)
        · exact Or.inl hx
        · exact Or.inr ⟨List.cons_ne_nil c rest, rfl⟩
        · exact Or.inr ⟨List.cons_ne_nil c rest, rfl⟩
      · rintro (hx | ⟨_, rfl⟩)
        · exact Or.inl (Or.inl hx)
        · exact Or.inl (Or.inr rfl)

theorem keys_stmt_params_mem (st : Stmt α) (p : Params α) (x : String) :
    x ∈ param_keys (stmt_params p st) ↔
      x ∈ param_keys p ∨ ∃ fc ∈ st, fc.2 ≠ [] ∧ x = param_name_of fc.1 := by
  induction st generalizing p with
  | nil => simp [stmt_params]
  | cons fc rest ih =>
      show x ∈ param_keys (stmt_params (fc.2.foldl (fun a c => dict_set a (param_name_of fc.1) c.2) p) rest) ↔ _
      rw [ih, keys_foldl_dict_set_mem]
      constructor
      · rintro ((hx | ⟨hne, rfl⟩) | ⟨gc, hgc, hg2, rfl⟩)
        · exact Or.inl hx
        · exact Or.inr ⟨fc, List.mem_cons_self fc rest, hne, rfl⟩
        · exact Or.inr ⟨gc, List.mem_cons_of_mem fc hgc, hg2, rfl⟩
      · rintro (hx | ⟨gc, hgc, hg2, rfl⟩)
        · exact Or.inl (Or.inl hx)
        · rcases List.mem_cons.1 hgc with rfl | hgc'
          · exact Or.inl (Or.inr ⟨hg2, rfl⟩)
          · exact Or.inr ⟨gc, hgc', hg2, rfl⟩

theorem convert_operator_extract (st : Stmt α) (hclean : ∀ fc ∈ st, clean_field fc.1 = true) :
    ∀ n ∈ extract_placeholders ((convert_operator [] st).2.1),
      n ∈ param_keys ((convert_operator [] st).2.2) := by
  intro n hn
  rw [convert_operator_spec] at hn ⊢
  simp only at hn ⊢
  rw [extract_join ' ' ['A', 'N', 'D', ' '] " AND " rfl (by decide) (by decide)] at hn
  rw [List.mem_flatten] at hn
  obtain ⟨l, hl, hnl⟩ := hn
  rw [List.mem_map] at hl
  obtain ⟨piece, hpiece, rfl⟩ := hl
  obtain ⟨fc, hfc, _hne, cnd, hcnd, hsup, rfl⟩ := stmt_sql_mem st piece hpiece
  rw [comparison_extract fc.1 cnd.1 (hclean fc hfc)] at hnl
  simp only [List.mem_singleton] at hnl
  subst hnl
  rw [keys_stmt_params_mem]
  refine Or.inr ⟨fc, hfc, ?_, rfl⟩
  intro hnil
  rw [hnil] at hcnd
  exact absurd hcnd (List.not_mem_nil cnd)

/-! ### Field accumulation membership -/

theorem add_field_mem (fields : List String) (f x : String) :
    x ∈ add_field fields f ↔ x ∈ fields ∨ x = f := by
  unfold add_field
  by_cases h : f ∈ fields
  · rw [if_pos h]
    constructor
    · exact Or.inl
    · rintro (hx | rfl)
      · exact hx
      · exact h
  · rw [if_neg h]
    simp

theorem mem_foldl_add_field (st : Stmt α) (fields : List String) (x : String) :
    x ∈ st.foldl (fun acc fc => add_field acc fc.1) fields ↔
      x ∈ fields ∨ x ∈ st.map Prod.fst := by
  induction st generalizing fields with
  | nil => simp
  | cons fc rest ih =>
      rw [List.foldl_cons, ih, add_field_mem]
      simp only [List.map_cons, List.mem_cons]
      tauto

theorem convert_operator_fst_mem (st : Stmt α) (fields : List String) (x : String) :
    x ∈ (convert_operator fields st).1 ↔ x ∈ fields ∨ x ∈ st.map Prod.fst := by
  rw [convert_operator_spec]
  exact mem_foldl_add_field st fields x

theorem fields_mem {α : Type} (conds : List (Selector α)) :
    ∀ (fields sub : List String) (par : Params α) (x : String),
      x ∈ (process_conditions fields conds sub par).1 ↔
        x ∈ fields ∨ x ∈ conds_own_fields conds := by
  refine process_conditions.induct
    (fun _ conds _ _ => ∀ (fields sub : List String) (par : Params α) (x : String),
      x ∈ (process_conditions fields conds sub par).1 ↔
        x ∈ fields ∨ x ∈ conds_own_fields conds)
    (fun _ s => ∀ (fields : List String) (x : String),
      x ∈ (query_selector_to_sql fields s).1 ↔ x ∈ fields ∨ x ∈ sel_own_fields s)
    (fun _ m _ _ => ∀ (fields sql : List String) (par : Params α) (x : String),
      x ∈ (process_keys fields m sql par).1 ↔ x ∈ fields ∨ x ∈ opmap_own_fields m)
    ?_ ?_ ?_ ?_ ?_ ?_ ?_ ?_ [] conds [] []
  · intro _ _ _ fields sub par x
    simp [process_conditions, conds_own_fields]
  · intro _ _ _ st op rest r ih fields sub par x
    simp only [process_conditions, conds_own_fields, ih, convert_operator_fst_mem,
      List.mem_append]
    tauto
  · intro _ _ _ om rest r ih2 ih1 fields sub par x
    simp only [process_conditions, conds_own_fields, ih1, ih2, List.mem_append]
    tauto
  · intro _ _ _ rest ih fields sub par x
    simp only [process_conditions, conds_own_fields, ih]
  · intro _ st fields x
    simp [query_selector_to_sql, sel_own_fields]
  · intro _ st opMap ih3 fields x
    simp only [query_selector_to_sql, sel_own_fields, ih3]
  · intro _ _ _ fields sql par x
    simp [process_keys, opmap_own_fields]
  · intro _ _ _ key conds rest r sq ih1 ih3 fields sql par x
    simp only [process_keys, opmap_own_fields, ih3, ih1, List.mem_append]
    tauto

theorem process_keys_fields_mem {α : Type} (m : List (String × List (Selector α)))
    (g sql : List String) (par : Params α) (x : String) :
    x ∈ (process_keys g m sql par).1 ↔ x ∈ g ∨ x ∈ opmap_own_fields m := by
  induction m generalizing g sql par with
  | nil => simp [process_keys, opmap_own_fields]
  | cons kc rest ih =>
      obtain ⟨key, conds⟩ := kc
      simp only [process_keys, opmap_own_fields, ih, fields_mem, List.mem_append]
      tauto

theorem query_selector_fields_mem {α : Type} (s : Selector α) (fields : List String)
    (x : String) :
    x ∈ (query_selector_to_sql fields s).1 ↔ x ∈ fields ∨ x ∈ sel_own_fields s := by
  obtain ⟨st, op⟩ := s
  cases op with
  | none => simp [query_selector_to_sql, sel_own_fields]
  | some opMap =>
      simp only [query_selector_to_sql, sel_own_fields, process_keys_fields_mem]

/-! ### Placeholders of a compiled fragment are parameter keys -/

theorem extract_empty : extract_placeholders "" = [] := rfl

theorem child_sql_list_cons_stmt (st : Stmt α)
    (op : Option (List (String × List (Selector α)))) (rest : List (Selector α)) :
    child_sql_list (Selector.node (some st) op :: rest) =
      ("(" ++ child_sql (Selector.node (some st) op) ++ ")") :: child_sql_list rest := by
  simp [child_sql_list, List.filterMap_cons, has_contribution]

theorem child_sql_list_cons_op (om : List (String × List (Selector α)))
    (rest : List (Selector α)) :
    child_sql_list (Selector.node none (some om) :: rest) =
      ("(" ++ child_sql (Selector.node none (some om)) ++ ")") :: child_sql_list rest := by
  simp [child_sql_list, List.filterMap_cons, has_contribution]

theorem child_sql_list_cons_skip (rest : List (Selector α)) :
    child_sql_list (Selector.node none none :: rest) = child_sql_list rest := by
  simp [child_sql_list, List.filterMap_cons, has_contribution]

theorem extract_mem_keys {α : Type} (s : Selector α)
    (h : ∀ x ∈ sel_own_fields s, clean_field x = true) :
    ∀ n ∈ extract_placeholders ((query_selector_to_sql [] s).2.1),
      n ∈ param_keys ((query_selector_to_sql ([] : List String) s).2.2) := by
  refine query_selector_to_sql.induct
    (fun _ conds _ _ =>
      (∀ x ∈ conds_own_fields conds, clean_field x = true) →
      ∀ p ∈ child_sql_list conds, ∀ n ∈ extract_placeholders p,
        n ∈ param_keys (child_params_fold ([] : Params α) conds))
    (fun _ s =>
      (∀ x ∈ sel_own_fields s, clean_field x = true) →
      ∀ n ∈ extract_placeholders ((query_selector_to_sql [] s).2.1),
        n ∈ param_keys ((query_selector_to_sql ([] : List String) s).2.2))
    (fun _ m _ _ =>
      (∀ x ∈ opmap_own_fields m, clean_field x = true) →
      ∀ p ∈ key_sql_list m, ∀ n ∈ extract_placeholders p,
        n ∈ param_keys (key_params_fold ([] : Params α) m))
    ?_ ?_ ?_ ?_ ?_ ?_ ?_ ?_ [] s h
  · intro _ _ _ _hclean p hp
    simp [child_sql_list] at hp
  · intro _ _ _ st op rest r ih hclean p hp n hn
    have hcleanst : ∀ fc ∈ st, clean_field fc.1 = true := by
      intro fc hfc
      apply hclean
      simp only [conds_own_fields, List.mem_append]
      exact Or.inl (List.mem_map_of_mem Prod.fst hfc)
    have hcleanrest : ∀ x ∈ conds_own_fields rest, clean_field x = true := by
      intro x hx
      apply hclean
      simp only [conds_own_fields, List.mem_append]
      exact Or.inr hx
    have hfold : child_params_fold ([] : Params α) (Selector.node (some st) op :: rest) =
        child_params_fold (dict_update [] (child_params (Selector.node (some st) op))) rest :=
      rfl
    rw [child_sql_list_cons_stmt] at hp
    rw [hfold]
    rcases List.mem_cons.1 hp with rfl | hp'
    · rw [extract_paren] at hn
      have hcs : child_sql (Selector.node (some st) op) = (convert_operator [] st).2.1 := by
        simp [child_sql]
      rw [hcs] at hn
      have hk := convert_operator_extract st hcleanst n hn
      have hcp : child_params (Selector.node (some st) op) = (convert_operator [] st).2.2 := by
        simp [child_params]
      rw [keys_child_params_fold_mem]
      refine Or.inl ?_
      rw [keys_dict_update_mem, hcp]
      exact Or.inr hk
    · have hk := ih hcleanrest p hp' n hn
      rw [keys_child_params_fold_mem]
      exact Or.inr hk
  · intro _ _ _ om rest r ih2 ih1 hclean p hp n hn
    have hcleanc : ∀ x ∈ sel_own_fields (Selector.node none (some om)),
        clean_field x = true := by
      intro x hx
      apply hclean
      simp only [conds_own_fields, List.mem_append]
      exact Or.inl hx
    have hcleanrest : ∀ x ∈ conds_own_fields rest, clean_field x = true := by
      intro x hx
      apply hclean
      simp only [conds_own_fields, List.mem_append]
      exact Or.inr hx
    have hfold : child_params_fold ([] : Params α) (Selector.node none (some om) :: rest) =
        child_params_fold (dict_update [] (child_params (Selector.node none (some om)))) rest :=
      rfl
    rw [child_sql_list_cons_op] at hp
    rw [hfold]
    rcases List.mem_cons.1 hp with rfl | hp'
    · rw [extract_paren] at hn
      have hcs : child_sql (Selector.node none (some om)) =
          (query_selector_to_sql [] (Selector.node none (some om))).2.1 := by
        simp [child_sql]
      rw [hcs] at hn
      have hk := ih2 hcleanc n hn
      have hcp : child_params (Selector.node none (some om)) =
          (query_selector_to_sql ([] : List String) (Selector.node none (some om))).2.2 := by
        simp [child_params]
      rw [keys_child_params_fold_mem]
      refine Or.inl ?_
      rw [keys_dict_update_mem, hcp]
      exact Or.inr hk
    · have hk := ih1 hcleanrest p hp' n hn
      rw [keys_child_params_fold_mem]
      exact Or.inr hk
  · intro _ _ _ rest ih hclean p hp n hn
    have hcleanrest : ∀ x ∈ conds_own_fields rest, clean_field x = true := by
      intro x hx
      apply hclean
      simp only [conds_own_fields]
      exact hx
    rw [child_sql_list_cons_skip] at hp
    have hcp : child_params (Selector.node none none) = ([] : Params α) := by
      simp [child_params, query_selector_to_sql]
    have hfold : child_params_fold ([] : Params α) (Selector.node none none :: rest) =
        child_params_fold ([] : Params α) rest := by
      show child_params_fold (dict_update [] (child_params (Selector.node none none))) rest = _
      rw [hcp]
      rfl
    rw [hfold]
    exact ih hcleanrest p hp n hn
  · intro _ st hclean n hn
    have hfrag : (query_selector_to_sql ([] : List String)
        (Selector.node st none)).2.1 = "" := by
      simp [query_selector_to_sql]
    rw [hfrag, extract_empty] at hn
    exact absurd hn (List.not_mem_nil n)
  · intro _ st opMap ih3 hclean n hn
    have hcleanm : ∀ x ∈ opmap_own_fields opMap, clean_field x = true := by
      intro x hx
      apply hclean
      simp only [sel_own_fields]
      exact hx
    have hq := query_selector_spec st opMap ([] : List String)
    rw [congrArg Prod.fst hq] at hn
    rw [congrArg Prod.snd hq]
    by_cases hempty : key_sql_list opMap = []
    · rw [if_pos hempty, extract_empty] at hn
      exact absurd hn (List.not_mem_nil n)
    · rw [if_neg hempty,
          extract_join ' ' ['A', 'N', 'D', ' '] " AND " rfl (by decide) (by decide)] at hn
      rw [List.mem_flatten] at hn
      obtain ⟨l, hl, hnl⟩ := hn
      rw [List.mem_map] at hl
      obtain ⟨piece, hpiece, rfl⟩ := hl
      exact ih3 hcleanm piece hpiece n hnl
  · intro _ _ _ _hclean p hp
    simp [key_sql_list] at hp
  · intro _ _ _ key conds rest r sq ih1 ih3 hclean p hp n hn
    have hcleanconds : ∀ x ∈ conds_own_fields conds, clean_field x = true := by
      intro x hx
      apply hclean
      simp only [opmap_own_fields, List.mem_append]
      exact Or.inl hx
    have hcleanrest : ∀ x ∈ opmap_own_fields rest, clean_field x = true := by
      intro x hx
      apply hclean
      simp only [opmap_own_fields, List.mem_append]
      exact Or.inr hx
    have hfold : key_params_fold ([] : Params α) ((key, conds) :: rest) =
        key_params_fold (child_params_fold [] conds) rest := rfl
    rw [hfold]
    have htail : p ∈ key_sql_list rest →
        n ∈ param_keys (key_params_fold (child_params_fold ([] : Params α) conds) rest) := by
      intro hp'
      have hk := ih3 hcleanrest p hp' n hn
      rw [keys_key_params_fold_mem]
      exact Or.inr hk
    have hhead : (∀ sep : String, p = str_join sep (child_sql_list conds) →
        extract_placeholders p = (List.map extract_placeholders (child_sql_list conds)).flatten →
        n ∈ param_keys (key_params_fold (child_params_fold ([] : Params α) conds) rest)) := by
      intro sep hpeq hext
      rw [hext] at hn
      rw [List.mem_flatten] at hn
      obtain ⟨l, hl, hnl⟩ := hn
      rw [List.mem_map] at hl
      obtain ⟨piece, hpiece, rfl⟩ := hl
      have hk := ih1 hcleanconds piece hpiece n hnl
      rw [keys_key_params_fold_mem]
      exact Or.inl ((keys_child_params_fold_mem conds [] n).2 (Or.inr hk))
    by_cases hand : key = "$and"
    · have hlist : key_sql_list ((key, conds) :: rest) =
          str_join " AND " (child_sql_list conds) :: key_sql_list rest := by
        simp [key_sql_list, List.filterMap_cons, hand]
      rw [hlist] at hp
      rcases List.mem_cons.1 hp with rfl | hp'
      · exact hhead " AND " rfl
          (extract_join ' ' ['A', 'N', 'D', ' '] " AND " rfl (by decide) (by decide) _)
      · exact htail hp'
    · by_cases hor : key = "$or"
      · have hlist : key_sql_list ((key, conds) :: rest) =
            str_join " OR " (child_sql_list conds) :: key_sql_list rest := by
          simp [key_sql_list, List.filterMap_cons, hand, hor]
        rw [hlist] at hp
        rcases List.mem_cons.1 hp with rfl | hp'
        · exact hhead " OR " rfl
            (extract_join ' ' ['O', 'R', ' '] " OR " rfl (by decide) (by decide) _)
        · exact htail hp'
      · have hlist : key_sql_list ((key, conds) :: rest) = key_sql_list rest := by
          simp [key_sql_list, List.filterMap_cons, hand, hor]
        rw [hlist] at hp
        exact htail hp

theorem nodup_keys_query {α : Type} (s : Selector α) :
    (param_keys ((query_selector_to_sql ([] : List String) s).2.2)).Nodup := by
  obtain ⟨st, op⟩ := s
  cases op with
  | none =>
      have h : (query_selector_to_sql ([] : List String)
          (Selector.node st none)).2.2 = ([] : Params α) := by
        simp [query_selector_to_sql]
      rw [h]
      exact List.nodup_nil
  | some m =>
      rw [congrArg Prod.snd (query_selector_spec st m ([] : List String))]
      exact nodup_keys_key_params_fold m [] List.nodup_nil

/-- Claim C7 counterexample: a field name containing SQL punctuation can forge
placeholder tokens.  For the field `"f = :oops"`, the compiled fragment is
`"(f = :oops = :f = :oops)"`, whose placeholder tokens are
`oops`, `f`, `oops` — but the parameter mapping's only key is `"f = :oops"`,
so the token `oops` has no corresponding key, refuting the claim as stated
for arbitrary selector trees. -/
theorem claim_c7_counterexample :
    (query_selector_to_sql []
      (Selector.node none (some [("$and",
        [Selector.node (some [("f = :oops", [("$eq", Scalar.int 1)])]) none])]))).2 =
      ("(f = :oops = :f = :oops)", [("f = :oops", Scalar.int 1)]) ∧
    extract_placeholders "(f = :oops = :f = :oops)" = ["oops", "f", "oops"] ∧
    (param_keys [("f = :oops", Scalar.int 1)]).count "oops" = 0 := by
  refine ⟨?_, by decide, by decide⟩
  simp [query_selector_to_sql, process_keys, process_conditions, convert_operator,
    convert_fields, convert_conds, render_comparison, dict_update, dict_set,
    add_field, param_name_of, str_join]

/-- Claim C7 (amended): for every selector tree whose collected field names are
clean — made of word characters (alphanumeric or underscore) and dots only —
every placeholder token of the form `:<name>` appearing in the fragment
returned by `query_selector_to_sql` has exactly one corresponding key `<name>`
in the returned parameter mapping.  (Without the cleanliness restriction a
field name containing `" :"` can forge tokens, see the counterexample.) -/
theorem claim_c7 {α : Type} (s : Selector α)
    (h : ∀ x ∈ (query_selector_to_sql ([] : List String) s).1, clean_field x = true) :
    ∀ n ∈ extract_placeholders ((query_selector_to_sql [] s).2.1),
      (param_keys ((query_selector_to_sql ([] : List String) s).2.2)).count n = 1 := by
  intro n hn
  have hclean : ∀ x ∈ sel_own_fields s, clean_field x = true := by
    intro x hx
    exact h x ((query_selector_fields_mem s [] x).2 (Or.inr hx))
  have hmem := extract_mem_keys s hclean n hn
  exact List.count_eq_one_of_mem (nodup_keys_query s) hmem

/-- Claim C7 witness: a selector on the clean dotted field `user.age` and the
field `country`; every placeholder token of its compiled fragment has exactly
one key in the parameter mapping. -/
theorem claim_c7_witness :
    (param_keys ((query_selector_to_sql ([] : List String)
      (Selector.node none (some [("$and",
        [Selector.node (some [("user.age", [("$gte", Scalar.int 18)])]) none,
         Selector.node (some [("country", [("$eq", Scalar.str "DE")])]) none])]))).2.2)).count
      "user_age" = 1 := by
  have h1 : (query_selector_to_sql ([] : List String)
      (Selector.node none (some [("$and",
        [Selector.node (some [("user.age", [("$gte", Scalar.int 18)])]) none,
         Selector.node (some [("country", [("$eq", Scalar.str "DE")])]) none])]))).1 =
      ["user.age", "country"] := by
    simp [query_selector_to_sql, process_keys, process_conditions, convert_operator,
      convert_fields, convert_conds, render_comparison, dict_update, dict_set,
      add_field, param_name_of, str_join]
  have h2 : (query_selector_to_sql ([] : List String)
      (Selector.node none (some [("$and",
        [Selector.node (some [("user.age", [("$gte", Scalar.int 18)])]) none,
         Selector.node (some [("country", [("$eq", Scalar.str "DE")])]) none])]))).2.1 =
      "(user.age >= :user_age) AND (country = :country)" := by
    simp [query_selector_to_sql, process_keys, process_conditions, convert_operator,
      convert_fields, convert_conds, render_comparison, dict_update, dict_set,
      add_field, param_name_of, str_join]
  refine claim_c7 _ ?_ "user_age" ?_
  · rw [h1]
    intro x hx
    rcases List.mem_cons.1 hx with rfl | hx2
    · decide
    · rcases List.mem_cons.1 hx2 with rfl | hx3
      · decide
      · exact absurd hx3 (List.not_mem_nil x)
  · rw [h2]
    decide

/-! ### Claims C8 and C10 -/

theorem ctce_some_iff {α ρ : Type} (db : DB α ρ) (t : String) (cs : List String) :
    check_table_column_exist db (some t) (some cs) = true ↔
      t ∈ get_all_tables db ∧ ∀ c ∈ cs, c ∈ get_table_columns db t := by
  simp only [check_table_column_exist]
  by_cases h : t ∈ get_all_tables db
  · rw [if_pos h]
    simp [List.all_eq_true, h]
  · rw [if_neg h]
    simp [h]

/-- Claim C8: the schema guard.  If any field collected while compiling a
selector is not among the table's columns (or the table is unknown),
`check_parameter` returns `(False, "", {})` — discarding the compiled pair —
and `get_values` returns the empty list with an empty execution trace (no SQL
executed); if the table is known and all collected fields exist,
`check_parameter` returns `(True, fragment, params)` with the compiled pair
unchanged. -/
theorem claim_c8 {α ρ : Type} (db : DB α ρ) (table : String) (p : Selector α) :
    ((¬ (table ∈ get_all_tables db ∧
        ∀ f ∈ (query_selector_to_sql ([] : List String) p).1, f ∈ get_table_columns db table)) →
      check_parameter db table (some p) = (false, "", []) ∧
      ∀ columns, get_values db table columns (some p) = ([], [])) ∧
    ((table ∈ get_all_tables db ∧
        ∀ f ∈ (query_selector_to_sql ([] : List String) p).1, f ∈ get_table_columns db table) →
      check_parameter db table (some p) =
        (true, (query_selector_to_sql ([] : List String) p).2.1,
         (query_selector_to_sql ([] : List String) p).2.2)) := by
  constructor
  · intro hbad
    have hc : check_table_column_exist db (some table)
        (some (query_selector_to_sql ([] : List String) p).1) = false := by
      cases hcb : check_table_column_exist db (some table)
          (some (query_selector_to_sql ([] : List String) p).1) with
      | false => rfl
      | true => exact absurd ((ctce_some_iff db table _).1 hcb) hbad
    have hcp : check_parameter db table (some p) = (false, "", []) := by
      simp only [check_parameter]
      rw [hc]
      simp
    refine ⟨hcp, ?_⟩
    intro columns
    simp only [get_values]
    rw [hcp]
    simp
  · intro hgood
    have hc : check_table_column_exist db (some table)
        (some (query_selector_to_sql ([] : List String) p).1) = true :=
      (ctce_some_iff db table _).2 hgood
    simp only [check_parameter]
    rw [hc]
    simp

/-- Claim C8 witness: the spec's schema-rejection scenario — table `users`
with columns `name`, `age` and a selector referencing `country`.  The guard
rejects and `get_values` executes nothing. -/
theorem claim_c8_witness :
    check_parameter
      (DB.mk [("users", ["name", "age"])] (fun _ _ => ([] : List Unit)))
      "users"
      (some (Selector.node none (some [("$and",
        [Selector.node (some [("country", [("$eq", Scalar.str "DE")])]) none])]))) =
      (false, "", []) ∧
    ∀ columns, get_values
      (DB.mk [("users", ["name", "age"])] (fun _ _ => ([] : List Unit)))
      "users" columns
      (some (Selector.node none (some [("$and",
        [Selector.node (some [("country", [("$eq", Scalar.str "DE")])]) none])]))) =
      ([], []) := by
  apply (claim_c8 (DB.mk [("users", ["name", "age"])] (fun _ _ => ([] : List Unit)))
    "users"
    (Selector.node none (some [("$and",
      [Selector.node (some [("country", [("$eq", Scalar.str "DE")])]) none])]))).1
  intro hcon
  have h1 : (query_selector_to_sql ([] : List String)
      (Selector.node none (some [("$and",
        [Selector.node (some [("country", [("$eq", Scalar.str "DE")])]) none])]))).1 =
      ["country"] := by
    simp [query_selector_to_sql, process_keys, process_conditions, convert_operator,
      convert_fields, convert_conds, render_comparison, dict_update, dict_set,
      add_field, param_name_of, str_join]
  have h2 := hcon.2 "country" (by rw [h1]; exact List.mem_cons_self "country" [])
  revert h2
  decide

/-- Claim C10: in `DBHandler.get_all`, for every existing table and selector
that passes the schema check, the first branch (`SELECT * FROM table`, no
WHERE clause, no bound parameters) is taken; and over all inputs, the
execution trace is either empty or that single unfiltered statement — the
`elif` that would append the compiled filter is unreachable, so `get_all`
never applies the compiled fragment or its parameters. -/
theorem claim_c10 {α ρ : Type} (db : DB α ρ) (table : String)
    (parameter : Option (Selector α))
    (h1 : table ∈ get_all_tables db)
    (h2 : (check_parameter db table parameter).1 = true) :
    get_all db table parameter =
      (db.exec ("SELECT * FROM " ++ table) [], [("SELECT * FROM " ++ table, [])]) ∧
    ∀ (db' : DB α ρ) (table' : String) (parameter' : Option (Selector α)),
      (get_all db' table' parameter').2 = [] ∨
      (get_all db' table' parameter').2 = [("SELECT * FROM " ++ table', [])] := by
  constructor
  · have hex : check_table_column_exist db (some table) none = true := by
      simp only [check_table_column_exist]
      rw [if_pos h1]
    simp only [get_all]
    rw [hex]
    simp [h2]
  · intro db' table' parameter'
    simp only [get_all]
    by_cases hr : (check_parameter db' table' parameter').1 = false
    · rw [if_pos hr]
      exact Or.inl rfl
    rw [if_neg hr]
    by_cases hex : check_table_column_exist db' (some table') none = true
    · rw [if_pos hex]
      exact Or.inr rfl
    · rw [if_neg hex]
      have hcond : ¬ (check_table_column_exist db' (some table') none = true ∧
          (check_parameter db' table' parameter').2.1 ≠ "") := by
        intro hc
        exact hex hc.1
      rw [if_neg hcond]
      exact Or.inl rfl

/-- Claim C10 witness: a known table `users` with no selector — the schema
check passes and `get_all` executes exactly `SELECT * FROM users` with no
parameters. -/
theorem claim_c10_witness :
    get_all (DB.mk [("users", ["name", "age"])] (fun _ _ => ([] : List Unit)) : DB Scalar Unit)
        "users" (none : Option (Selector Scalar)) =
      ((DB.mk [("users", ["name", "age"])] (fun _ _ => ([] : List Unit)) : DB Scalar Unit).exec
        ("SELECT * FROM " ++ "users") [], [("SELECT * FROM " ++ "users", [])]) ∧
    ∀ (db' : DB Scalar Unit) (table' : String) (parameter' : Option (Selector Scalar)),
      (get_all db' table' parameter').2 = [] ∨
      (get_all db' table' parameter').2 = [("SELECT * FROM " ++ table', [])] :=
  claim_c10 (DB.mk [("users", ["name", "age"])] (fun _ _ => ([] : List Unit)) : DB Scalar Unit)
    "users" none (by decide) rfl

/-! ### Claim C9: exception behaviour of the compiler -/

theorem is_ok_iff {ε δ : Type} (e : Except ε δ) : is_ok e = true ↔ ∃ r, e = .ok r := by
  cases e <;> simp [is_ok]

theorem py_convert_conds_ok (field pn : String) (conds : PyVal)
    (h : is_dict_chain conds = true) :
    ∀ (sqlParts : List String) (params : PyParams),
      is_ok (py_convert_conds field pn conds sqlParts params) = true := by
  induction conds with
  | pyNone => simp [is_dict_chain] at h
  | pyBool b => simp [is_dict_chain] at h
  | pyInt n => simp [is_dict_chain] at h
  | pyStr s => simp [is_dict_chain] at h
  | lnil => simp [is_dict_chain] at h
  | lcons hd tl ih1 ih2 => simp [is_dict_chain] at h
  | dnil => intro sqlParts params; simp [py_convert_conds, is_ok]
  | dcons k v rest ih1 ih2 =>
      intro sqlParts params
      simp only [is_dict_chain] at h
      simp only [py_convert_conds]
      exact ih2 h _ _

theorem py_convert_fields_ok (st : PyVal) (h : well_shaped_statement st = true) :
    ∀ (fields sqlParts : List String) (params : PyParams),
      is_ok (py_convert_fields st fields sqlParts params) = true := by
  induction st with
  | pyNone => simp [well_shaped_statement] at h
  | pyBool b => simp [well_shaped_statement] at h
  | pyInt n => simp [well_shaped_statement] at h
  | pyStr s => simp [well_shaped_statement] at h
  | lnil => simp [well_shaped_statement] at h
  | lcons hd tl ih1 ih2 => simp [well_shaped_statement] at h
  | dnil => intro fields sqlParts params; simp [py_convert_fields, is_ok]
  | dcons field conds rest ih1 ih2 =>
      intro fields sqlParts params
      simp only [well_shaped_statement, Bool.and_eq_true] at h
      have hok := py_convert_conds_ok field (param_name_of field) conds h.1 sqlParts params
      rw [is_ok_iff] at hok
      obtain ⟨r, hr⟩ := hok
      simp only [py_convert_fields, hr]
      exact ih2 h.2 _ _ _

theorem py_convert_operator_ok (fields : List String) (st : PyVal)
    (h : well_shaped_statement st = true) :
    is_ok (py_convert_operator fields st) = true := by
  have hok := py_convert_fields_ok st h fields [] []
  rw [is_ok_iff] at hok
  obtain ⟨r, hr⟩ := hok
  simp [py_convert_operator, hr, is_ok]

theorem ws_dictGet_statement (d : PyVal) (h : well_shaped d = true) (v : PyVal)
    (hg : dictGet d "statement" = some v) : well_shaped_statement v = true := by
  induction d with
  | pyNone => simp [dictGet] at hg
  | pyBool b => simp [dictGet] at hg
  | pyInt n => simp [dictGet] at hg
  | pyStr s => simp [dictGet] at hg
  | lnil => simp [dictGet] at hg
  | lcons hd tl ih1 ih2 => simp [dictGet] at hg
  | dnil => simp [dictGet] at hg
  | dcons k val rest ih1 ih2 =>
      simp only [well_shaped, Bool.and_eq_true] at h
      simp only [dictGet] at hg
      by_cases hk : k = "statement"
      · rw [if_pos hk] at hg
        cases hg
        have := h.1
        rw [if_pos hk] at this
        exact this
      · rw [if_neg hk] at hg
        exact ih2 h.2 hg

theorem ws_dictGet_operator (d : PyVal) (h : well_shaped d = true) (v : PyVal)
    (hg : dictGet d "operator" = some v) : well_shaped_opmap v = true := by
  induction d with
  | pyNone => simp [dictGet] at hg
  | pyBool b => simp [dictGet] at hg
  | pyInt n => simp [dictGet] at hg
  | pyStr s => simp [dictGet] at hg
  | lnil => simp [dictGet] at hg
  | lcons hd tl ih1 ih2 => simp [dictGet] at hg
  | dnil => simp [dictGet] at hg
  | dcons k val rest ih1 ih2 =>
      simp only [well_shaped, Bool.and_eq_true] at h
      simp only [dictGet] at hg
      by_cases hk : k = "operator"
      · rw [if_pos hk] at hg
        cases hg
        have := h.1
        rw [if_pos hk] at this
        rw [if_neg (by rw [hk]; decide)] at this
        exact this
      · rw [if_neg hk] at hg
        exact ih2 h.2 hg

/-- C9 amended: on every selector tree whose containers match the expected
shapes (dicts in dict positions, lists of dicts as child lists) the compiler
raises no exception, whatever the keys and leaf values are. -/
theorem claim_c9 (fields : List String) (sel : PyVal) (h : well_shaped sel = true) :
    is_ok (py_query_selector_to_sql fields sel) = true := by
  refine py_query_selector_to_sql.induct
      (fun _ c _ _ => ∀ fs sub par, well_shaped c = true →
        is_ok (py_process_condition fs c sub par) = true)
      (fun _ s => ∀ fs, well_shaped s = true →
        is_ok (py_query_selector_to_sql fs s) = true)
      (fun _ m _ _ => ∀ fs sql par, well_shaped_opmap m = true →
        is_ok (py_process_keys fs m sql par) = true)
      (fun _ cs _ _ => ∀ fs sub par, well_shaped_condlist cs = true →
        is_ok (py_process_conditions fs cs sub par) = true)
      ?_ ?_ ?_ ?_ ?_ ?_ ?_ ?_ ?_ ?_ ?_ ?_ ?_ ?_ ?_ ?_ ?_ ?_ ?_ ?_
      ?_ ?_ ?_ ?_ ?_ ?_ ?_ ?_ ?_ ?_ ?_ ?_ ?_ ?_ ?_ ?_ ?_ ?_
      fields sel fields h
  · intro fields subConds params fs sub par _
    simp [py_process_condition, is_ok]
  · intro fields subConds params a b r val hst r1 hco fs sub par hws
    have hst2 := ws_dictGet_statement _ hws val hst
    obtain ⟨r2, hr2⟩ := (is_ok_iff _).1 (py_convert_operator_ok fs val hst2)
    simp [py_process_condition, hst, hr2, is_ok]
  · intro fields subConds params a b r val hst e hco fs sub par hws
    have hst2 := ws_dictGet_statement _ hws val hst
    obtain ⟨r2, hr2⟩ := (is_ok_iff _).1 (py_convert_operator_ok fs val hst2)
    simp [py_process_condition, hst, hr2, is_ok]
  · intro fields subConds params a b r hst val hop r1 hq ih fs sub par hws
    obtain ⟨r2, hr2⟩ := (is_ok_iff _).1 (ih fs hws)
    simp [py_process_condition, hst, hop, hr2, is_ok]
  · intro fields subConds params a b r hst val hop e hq ih fs sub par hws
    obtain ⟨r2, hr2⟩ := (is_ok_iff _).1 (ih fs hws)
    simp [py_process_condition, hst, hop, hr2, is_ok]
  · intro fields subConds params a b r hst hop fs sub par hws
    simp [py_process_condition, hst, hop, is_ok]
  · intro fields subConds params fs sub par _
    simp [py_process_condition, is_ok]
  · intro fields subConds params hd tl hmem fs sub par hws
    simp [well_shaped] at hws
  · intro fields subConds params hd tl hmem1 hmem2 r hq ih fs sub par hws
    simp [well_shaped] at hws
  · intro fields subConds params hd tl hmem1 hmem2 e hq ih fs sub par hws
    simp [well_shaped] at hws
  · intro fields subConds params hd tl hmem1 hmem2 fs sub par hws
    simp [well_shaped] at hws
  · intro fields subConds params s hmem fs sub par hws
    simp [well_shaped] at hws
  · intro fields subConds params s hmem1 hmem2 r hq ih fs sub par hws
    simp [well_shaped] at hws
  · intro fields subConds params s hmem1 hmem2 e hq ih fs sub par hws
    simp [well_shaped] at hws
  · intro fields subConds params s hmem1 hmem2 fs sub par hws
    simp [well_shaped] at hws
  · intro fields condition subConds params h1 h2 h3 h4 h5 fs sub par hws
    cases condition with
    | pyNone => simp [well_shaped] at hws
    | pyBool b => simp [well_shaped] at hws
    | pyInt n => simp [well_shaped] at hws
    | pyStr s => exact (h5 s rfl).elim
    | lnil => exact (h3 rfl).elim
    | lcons hd tl => exact (h4 hd tl rfl).elim
    | dnil => exact (h1 rfl).elim
    | dcons a b r => exact (h2 a b r rfl).elim
  · intro fields fs _
    simp [py_query_selector_to_sql, is_ok]
  · intro fields a b r opVal hop r1 hk ih fs hws
    have hwm := ws_dictGet_operator _ hws opVal hop
    obtain ⟨r2, hr2⟩ := (is_ok_iff _).1 (ih fs [] [] hwm)
    simp only [py_query_selector_to_sql]
    split
    · rename_i x heq
      rw [hop] at heq
      injection heq with hx
      subst hx
      rw [hr2]
      simp [is_ok]
    · rename_i heq
      rw [hop] at heq
      simp at heq
  · intro fields a b r opVal hop e hk ih fs hws
    have hwm := ws_dictGet_operator _ hws opVal hop
    obtain ⟨r2, hr2⟩ := (is_ok_iff _).1 (ih fs [] [] hwm)
    simp only [py_query_selector_to_sql]
    split
    · rename_i x heq
      rw [hop] at heq
      injection heq with hx
      subst hx
      rw [hr2]
      simp [is_ok]
    · rename_i heq
      rw [hop] at heq
      simp at heq
  · intro fields a b r hop fs hws
    simp only [py_query_selector_to_sql]
    split
    · rename_i x heq
      rw [hop] at heq
      simp at heq
    · simp [is_ok]
  · intro fields fs _
    simp [py_query_selector_to_sql, is_ok]
  · intro fields hd tl hmem fs hws
    simp [well_shaped] at hws
  · intro fields hd tl hmem fs hws
    simp [well_shaped] at hws
  · intro fields s hmem fs hws
    simp [well_shaped] at hws
  · intro fields s hmem fs hws
    simp [well_shaped] at hws
  · intro fields selector h1 h2 h3 h4 h5 fs hws
    cases selector with
    | pyNone => simp [well_shaped] at hws
    | pyBool b => simp [well_shaped] at hws
    | pyInt n => simp [well_shaped] at hws
    | pyStr s => exact (h5 s rfl).elim
    | lnil => exact (h3 rfl).elim
    | lcons hd tl => exact (h4 hd tl rfl).elim
    | dnil => exact (h1 rfl).elim
    | dcons a b r => exact (h2 a b r rfl).elim
  · intro fields sqlConditions params fs sql par _
    simp [py_process_keys, is_ok]
  · intro fields sqlConditions params key val rest r hpc sc ih4 ih3 fs sql par hws
    simp only [well_shaped_opmap, Bool.and_eq_true] at hws
    obtain ⟨r2, hr2⟩ := (is_ok_iff _).1 (ih4 fs [] par hws.1)
    simp only [py_process_keys, hr2]
    exact ih3 _ _ _ hws.2
  · intro fields sqlConditions params key val rest e hpc ih4 fs sql par hws
    simp only [well_shaped_opmap, Bool.and_eq_true] at hws
    have hcontra := ih4 fields [] params hws.1
    rw [hpc] at hcontra
    simp [is_ok] at hcontra
  · intro fields opMap sqlConditions params h1 h2 fs sql par hws
    cases opMap with
    | pyNone => simp [well_shaped_opmap] at hws
    | pyBool b => simp [well_shaped_opmap] at hws
    | pyInt n => simp [well_shaped_opmap] at hws
    | pyStr s => simp [well_shaped_opmap] at hws
    | lnil => simp [well_shaped_opmap] at hws
    | lcons hd tl => simp [well_shaped_opmap] at hws
    | dnil => exact (h1 rfl).elim
    | dcons k v r => exact (h2 k v r rfl).elim
  · intro fields subConds params fs sub par _
    simp [py_process_conditions, is_ok]
  · intro fields subConds params condition rest r hpc ih1 ih4 fs sub par hws
    simp only [well_shaped_condlist, Bool.and_eq_true] at hws
    obtain ⟨r2, hr2⟩ := (is_ok_iff _).1 (ih1 fs sub par hws.1)
    simp only [py_process_conditions, hr2]
    exact ih4 _ _ _ hws.2
  · intro fields subConds params condition rest e hpc ih1 fs sub par hws
    simp only [well_shaped_condlist, Bool.and_eq_true] at hws
    have hcontra := ih1 fields subConds params hws.1
    rw [hpc] at hcontra
    simp [is_ok] at hcontra
  · intro fields subConds params fs sub par _
    simp [py_process_conditions, is_ok]
  · intro fields subConds params k val rest r hpc ih1 ih4 fs sub par hws
    simp [well_shaped_condlist] at hws
  · intro fields subConds params k val rest e hpc ih1 fs sub par hws
    simp [well_shaped_condlist] at hws
  · intro fields subConds params s fs sub par _
    simp [py_process_conditions, is_ok]
  · intro fields conditions subConds params h1 h2 h3 h4 h5 fs sub par hws
    cases conditions with
    | pyNone => simp [well_shaped_condlist] at hws
    | pyBool b => simp [well_shaped_condlist] at hws
    | pyInt n => simp [well_shaped_condlist] at hws
    | pyStr s => exact (h5 s rfl).elim
    | lnil => exact (h1 rfl).elim
    | lcons c r => exact (h2 c r rfl).elim
    | dnil => exact (h3 rfl).elim
    | dcons k v r => exact (h4 k v r rfl).elim

/-- C9 counterexample: a selector whose `"operator"` value is an integer makes
`selector["operator"].items()` raise `AttributeError`, so the compiler is not
total on malformed input. -/
theorem claim_c9_counterexample :
    py_query_selector_to_sql [] (.dcons "operator" (.pyInt 5) .dnil) =
      .error .attributeError := by
  simp [py_query_selector_to_sql, dictGet, py_process_keys]

/-- Witness for C9: a concrete well-shaped selector with an extra junk key and
an unknown connective compiles without an exception. -/
theorem claim_c9_witness :
    well_shaped (PyVal.dcons "operator"
      (.dcons "$and" (.lcons .dnil .lnil) .dnil) (.dcons "junk" (.pyInt 7) .dnil)) = true ∧
    is_ok (py_query_selector_to_sql []
      (PyVal.dcons "operator"
        (.dcons "$and" (.lcons .dnil .lnil) .dnil) (.dcons "junk" (.pyInt 7) .dnil))) = true :=
  ⟨by simp [well_shaped, well_shaped_opmap, well_shaped_condlist],
   claim_c9 [] _ (by simp [well_shaped, well_shaped_opmap, well_shaped_condlist])⟩

end TitanicQuery
